import Mathlib

/-!
Verification development for the lab-report text parser
(`backend/app/services/parser.py`).

The Python module is shallowly embedded below.  Conventions of the embedding:

* Python `float` values that the parser produces all come from parsing decimal
  numerals (digits, thousands commas, a decimal point); they are modelled
  exactly by `Dec` (a non-negative decimal `num / 10^exp`).  Comparisons and
  the `repr`-style rendering used by f-strings are modelled on this exact
  form, including CPython's switch from positional to scientific notation
  for magnitudes outside `[1e-4, 1e16)`.  (IEEE-754 rounding of extremely
  long numerals is idealized away.)
* Python regexes are compiled by hand to an `RE` syntax tree and run by a
  small backtracking matcher with Python's semantics: leftmost match,
  greedy quantifiers, ordered alternation, numbered capture groups.
  Character classes `\d`, `\s`, `\w`, `\b` are modelled over the ASCII
  range plus the non-ASCII characters the source actually uses
  (micro signs, arrows, en dash, dots, comparators).
* Fallible Python operations (`float(...)` raising `ValueError`) are modelled
  with `Option`/`Except`.  `parse_text` is `Except Unit (...)`: `.error ()`
  models an uncaught exception escaping the function.
-/

namespace LabParser

/-! ### Character classes -/

/-- `\s` (ASCII range, as used by the parser's inputs). -/
def isSpaceC (c : Char) : Bool :=
  c = ' ' || c = '\t' || c = '\n' || c = '\x0d' || c = '\x0b' || c = '\x0c'

/-- `\w`: ASCII alphanumerics, underscore, and the micro signs that the
source's own classes mention. -/
def isWordC (c : Char) : Bool :=
  c.isAlphanum || c = '_' || c = 'μ' || c = 'µ'

def optWord : Option Char → Bool
  | none => false
  | some c => isWordC c

/-! ### List/string helpers mirroring Python's str methods -/

/-- Both-ends strip by a character predicate (Python `str.strip`). -/
def stripChars (p : Char → Bool) (l : List Char) : List Char :=
  ((l.dropWhile p).reverse.dropWhile p).reverse

def pyStrip (s : String) : String := String.mk (stripChars isSpaceC s.data)

/-- Python `str.strip(" -:\t")`. -/
def stripNameChars (s : String) : String :=
  String.mk (stripChars (fun c => c = ' ' || c = '-' || c = ':' || c = '\t') s.data)

def pyLower (s : String) : String := String.mk (s.data.map Char.toLower)

/-- Python `str.capitalize`: first character upper-cased, the rest lower-cased. -/
def pyCapitalize (s : String) : String :=
  match s.data with
  | [] => ""
  | c :: t => String.mk (c.toUpper :: t.map Char.toLower)

/-- Split a character list at every occurrence of `c` (keeping empty parts),
like Python `str.split("|")`. -/
def splitOnChar (c : Char) : List Char → List (List Char)
  | [] => [[]]
  | x :: t =>
    if x = c then [] :: splitOnChar c t
    else match splitOnChar c t with
      | [] => [[x]]
      | h :: r => (x :: h) :: r

theorem length_dropWhile_le (p : Char → Bool) :
    ∀ l : List Char, (l.dropWhile p).length ≤ l.length := by
  intro l
  induction l with
  | nil => simp [List.dropWhile]
  | cons c t ih =>
    simp only [List.dropWhile]
    split
    · exact Nat.le_trans ih (Nat.le_succ _)
    · exact Nat.le_refl _

/-- Python `str.splitlines` (restricted to `\n`, `\r\n`, `\r`). -/
def splitlinesAux : List Char → List Char → List String
  | [], acc => if acc.isEmpty then [] else [String.mk acc.reverse]
  | '\x0d' :: '\n' :: t, acc => String.mk acc.reverse :: splitlinesAux t []
  | '\x0d' :: t, acc => String.mk acc.reverse :: splitlinesAux t []
  | '\n' :: t, acc => String.mk acc.reverse :: splitlinesAux t []
  | c :: t, acc => splitlinesAux t (c :: acc)

def splitlinesPy (s : String) : List String := splitlinesAux s.data []

/-- Characters up to and past the first `']'` (used for `BRACKETS`). -/
def afterCloseBr : List Char → Option (List Char)
  | [] => none
  | c :: t => if c = ']' then some t else afterCloseBr t

theorem afterCloseBr_length : ∀ l r, afterCloseBr l = some r → r.length ≤ l.length := by
  intro l
  induction l with
  | nil => intro r h; simp [afterCloseBr] at h
  | cons c t ih =>
    intro r h
    simp only [afterCloseBr] at h
    split at h
    · injection h with h'; subst h'; exact Nat.le_succ _
    · exact Nat.le_trans (ih r h) (Nat.le_succ _)

/-- `BRACKETS.sub(" ", line)`: each `\[[^\]]*\]` span becomes one space.
Structural recursion on a fuel bound (each step consumes at least one
character, so `length + 1` fuel always suffices). -/
def stripBracketsAux : Nat → List Char → List Char
  | 0, _ => []
  | _, [] => []
  | fuel + 1, c :: t =>
    if c = '[' then
      match afterCloseBr t with
      | some rest => ' ' :: stripBracketsAux fuel rest
      | none => '[' :: stripBracketsAux fuel t
    else c :: stripBracketsAux fuel t

def stripBrackets (l : List Char) : List Char := stripBracketsAux (l.length + 1) l

/-- `WHITESPACE.sub(" ", line)`: collapse each whitespace run to one space. -/
def collapseWsAux : Nat → List Char → List Char
  | 0, _ => []
  | _, [] => []
  | fuel + 1, c :: t =>
    if isSpaceC c then ' ' :: collapseWsAux fuel (t.dropWhile isSpaceC)
    else c :: collapseWsAux fuel t

def collapseWs (l : List Char) : List Char := collapseWsAux (l.length + 1) l

/-- `_clean_line`: drop `[...]` notes, drop `*` runs, `|` to space, strip,
collapse whitespace. -/
def cleanLine (s : String) : String :=
  let l1 := stripBrackets s.data
  let l2 := l1.filter (fun c => ¬ (c = '*'))
  let l3 := l2.map (fun c => if c = '|' then ' ' else c)
  let l4 := stripChars isSpaceC l3
  String.mk (collapseWs l4)

/-- Is there a run of 3+ whitespace characters (`re.search(r"\s{3,}")`)? -/
def hasGap3 : List Char → Bool
  | [] => false
  | c :: t =>
    if isSpaceC c ∧ 2 ≤ (t.takeWhile isSpaceC).length then true
    else hasGap3 t

/-- `re.split(r"\s{3,}", p)`: cut at every maximal 3+ whitespace run. -/
def splitGap3Aux : Nat → List Char → List Char → List (List Char)
  | 0, _, acc => [acc.reverse]
  | _, [], acc => [acc.reverse]
  | fuel + 1, c :: t, acc =>
    if isSpaceC c ∧ 2 ≤ (t.takeWhile isSpaceC).length then
      acc.reverse :: splitGap3Aux fuel (t.dropWhile isSpaceC) []
    else splitGap3Aux fuel t (c :: acc)

def splitGap3 (l : List Char) : List (List Char) := splitGap3Aux (l.length + 1) l []

/-- `_split_columns_raw`: split on pipes, then on 3+ space gaps. -/
def splitColumnsRaw (raw : String) : List String :=
  let parts : List String :=
    if raw.data.contains '|' then
      ((splitOnChar '|' raw.data).map String.mk).filter
        (fun p => p ≠ "" ∧ pyStrip p ≠ "")
    else [raw]
  parts.flatMap (fun p =>
    if hasGap3 p.data then
      ((splitGap3 p.data).map String.mk).filter (fun s => s ≠ "" ∧ pyStrip s ≠ "")
    else [p])

/-! ### A tiny backtracking regex engine (Python `re` semantics)

Leftmost match, ordered alternation, greedy `*`/`+`/`?` (with the
progress requirement Python imposes on repeats), zero-width boundary
assertions reading the previous/next character, numbered capture groups. -/

inductive RE where
  | eps : RE
  | cls (p : Char → Bool) : RE
  | seq (a b : RE) : RE
  | alt (a b : RE) : RE
  | star (r : RE) : RE
  | grp (n : Nat) (r : RE) : RE
  | bound (p : Option Char → Option Char → Bool) : RE

/-- Captures: `(group index, start, end)`, most recent first. -/
abbrev Caps := List (Nat × Nat × Nat)

/-- Matcher continuations. -/
abbrev MCont := List Char → Nat → Option Char → Caps → Option (Nat × Caps)

/-- One matcher as a function. -/
abbrev Matcher := List Char → Nat → Option Char → Caps → MCont → Option (Nat × Caps)

/-- Greedy `*` over a given body matcher `m`.  Python requires every
repetition to consume input, so `input length + 1` fuel always suffices. -/
def starM (m : Matcher) : Nat → Matcher
  | 0, rest, pos, prev, caps, k => k rest pos prev caps
  | f + 1, rest, pos, prev, caps, k =>
    (m rest pos prev caps (fun r' p' v' c' =>
      if pos < p' then starM m f r' p' v' c' k else none)).orElse
    (fun _ => k rest pos prev caps)

/-- Backtracking matcher in continuation style.  `rest` is the unread input,
`pos` its offset in the whole string, `prev` the character just before it. -/
def reM (fuel : Nat) : RE → Matcher
  | .eps => fun rest pos prev caps k => k rest pos prev caps
  | .cls p => fun rest pos prev caps k =>
    match rest with
    | [] => none
    | c :: t => if p c then k t (pos + 1) (some c) caps else none
  | .seq a b => fun rest pos prev caps k =>
    reM fuel a rest pos prev caps (fun r' p' v' c' => reM fuel b r' p' v' c' k)
  | .alt a b => fun rest pos prev caps k =>
    (reM fuel a rest pos prev caps k).orElse (fun _ => reM fuel b rest pos prev caps k)
  | .star r => fun rest pos prev caps k => starM (reM fuel r) fuel rest pos prev caps k
  | .grp n r => fun rest pos prev caps k =>
    reM fuel r rest pos prev caps (fun r' p' v' c' => k r' p' v' ((n, pos, p') :: c'))
  | .bound p => fun rest pos prev caps k =>
    if p prev rest.head? then k rest pos prev caps else none

/-- Anchored attempt at offset 0 (Python `pattern.match`). -/
def reMatchAt (re : RE) (l : List Char) : Option (Nat × Caps) :=
  reM (l.length + 1) re l 0 none [] (fun _ p _ c => some (p, c))

def reSearchAux (re : RE) (total : Nat) :
    List Char → Nat → Option Char → Option (Nat × Nat × Caps)
  | rest, pos, prev =>
    match reM (total + 1) re rest pos prev [] (fun _ p _ c => some (p, c)) with
    | some (e, caps) => some (pos, e, caps)
    | none =>
      match rest with
      | [] => none
      | c :: t => reSearchAux re total t (pos + 1) (some c)

/-- Unanchored leftmost search (Python `pattern.search`):
returns `(start, end, captures)`. -/
def reSearch (re : RE) (l : List Char) : Option (Nat × Nat × Caps) :=
  reSearchAux re l.length l 0 none

def capGet (caps : Caps) (n : Nat) : Option (Nat × Nat) :=
  (caps.find? (fun x => x.1 = n)).map (fun x => (x.2.1, x.2.2))

def sliceStr (l : List Char) (a b : Nat) : String :=
  String.mk ((l.drop a).take (b - a))

/-! #### Pattern-building helpers -/

def rseq : List RE → RE
  | [] => .eps
  | [r] => r
  | r :: t => .seq r (rseq t)

def ralt : List RE → RE
  | [] => .cls (fun _ => false)
  | [r] => r
  | r :: t => .alt r (ralt t)

/-- Case-sensitive literal. -/
def lit (s : String) : RE := rseq (s.data.map (fun c => .cls (fun x => x = c)))

/-- Case-insensitive literal (`re.IGNORECASE`). -/
def ilit (s : String) : RE :=
  rseq (s.data.map (fun c => .cls (fun x => x.toLower = c.toLower)))

def ropt (r : RE) : RE := .alt r .eps
def rplus (r : RE) : RE := .seq r (.star r)
def spc : RE := .cls isSpaceC
def sp0 : RE := .star spc
def dig : RE := .cls Char.isDigit
def wordBnd : RE := .bound (fun p n => ¬ (optWord p = optWord n))
def atStart : RE := .bound (fun p _ => p.isNone)
def atEnd : RE := .bound (fun _ n => n.isNone)

/-! ### Exact decimals standing in for Python floats -/

/-- A non-negative decimal number `num / 10^exp`, kept with `exp` minimal
(no trailing zero in the fraction), mirroring the value of a Python float
parsed from a decimal numeral. -/
structure Dec where
  num : Nat
  exp : Nat
deriving DecidableEq, Repr

/-- Strip trailing fractional zeros (normal form, as Python `repr` shows). -/
def mkDec : Nat → Nat → Dec
  | n, 0 => ⟨n, 0⟩
  | n, e + 1 => if n % 10 = 0 then mkDec (n / 10) e else ⟨n, e + 1⟩

def decLT (a b : Dec) : Bool := a.num * 10 ^ b.exp < b.num * 10 ^ a.exp
def decLE (a b : Dec) : Bool := a.num * 10 ^ b.exp ≤ b.num * 10 ^ a.exp

/-- The rational value of a decimal (for stating order facts). -/
def toRat (d : Dec) : ℚ := (d.num : ℚ) / 10 ^ d.exp

def digitChar (n : Nat) : Char := Char.ofNat (48 + n)

def natDigitsAux : Nat → Nat → List Char
  | 0, _ => []
  | fuel + 1, n =>
    if n < 10 then [digitChar n]
    else natDigitsAux fuel (n / 10) ++ [digitChar (n % 10)]

/-- Decimal digits of `n`, most significant first. -/
def natDigits (n : Nat) : List Char := natDigitsAux (n + 1) n

/-- Drop trailing `'0'` characters. -/
def stripZerosRight (l : List Char) : List Char :=
  (l.reverse.dropWhile (fun c => c = '0')).reverse

/-- The scientific-notation rendering `d[.ddd]e±EE` CPython uses for a float
whose decimal exponent lies outside `[-4, 15]`: the mantissa is the leading
digit `m`, then the remaining digits `t` with trailing zeros stripped (the
`.` and the fraction are omitted when nothing remains, as in `1e-05`); the
exponent carries an explicit sign and at least two digits. -/
def sciChars (exp : Nat) (m : Char) (t : List Char) : List Char :=
  let rest := stripZerosRight t
  let mant := if rest.isEmpty then [m] else m :: '.' :: rest
  let sign := if exp + 1 ≤ t.length + 1 then '+' else '-'
  let absE := if exp + 1 ≤ t.length + 1 then t.length - exp else exp - t.length
  let eds := natDigits absE
  mant ++ 'e' :: sign :: (List.replicate (2 - eds.length) '0' ++ eds)

/-- The f-string/`repr` rendering of the float, as CPython produces it: the
value `num / 10^exp` is written positionally (one decimal point, at least one
digit on each side, no trailing fractional zeros) when its decimal exponent
`E = digits(num) - 1 - exp` satisfies `-4 ≤ E ≤ 15` — i.e. for magnitudes in
`[1e-4, 1e16)` and for zero — and in scientific notation (`1e-05`, `1.5e+16`)
otherwise, exactly as `repr(float(...))` switches format. -/
def showDec (d : Dec) : String :=
  if d.num = 0 then "0.0"
  else if (natDigits d.num).length ≤ d.exp + 16 ∧ d.exp ≤ (natDigits d.num).length + 3 then
    if d.exp = 0 then String.mk (natDigits d.num ++ ['.', '0'])
    else
      let ip := d.num / 10 ^ d.exp
      let fr := d.num % 10 ^ d.exp
      let ds := natDigits fr
      String.mk (natDigits ip ++ '.' :: (List.replicate (d.exp - ds.length) '0' ++ ds))
  else
    match natDigits d.num with
    | [] => "0.0"
    | m :: t => String.mk (sciChars d.exp m t)

def digitsToNat (l : List Char) : Nat :=
  l.foldl (fun acc c => acc * 10 + (c.toNat - 48)) 0

/-- Python `float(s)` on the digits-and-dots strings produced by
`_normalize_number_str` (`none` = `ValueError`). -/
def parseDec (s : String) : Option Dec :=
  match splitOnChar '.' s.data with
  | [a] => if ¬ a.isEmpty ∧ a.all Char.isDigit then some (mkDec (digitsToNat a) 0) else none
  | [a, b] =>
    if (¬ a.isEmpty ∨ ¬ b.isEmpty) ∧ a.all Char.isDigit ∧ b.all Char.isDigit then
      some (mkDec (digitsToNat a * 10 ^ b.length + digitsToNat b) b.length)
    else none
  | _ => none

/-! ### The parser's precompiled patterns, hand-compiled to `RE`

Names follow the Python module.  Group numbers: ranges use 1=low/first,
2=high; `VALUE_WITH_UNIT` uses 1=comp, 2=val, 3=unit. -/

/-- `\d{1,3}` (greedy). -/
def d13 : RE := .seq dig (ropt (.seq dig (ropt dig)))

/-- `,\d{3}`. -/
def thouGrp : RE := rseq [.cls (fun c => c = ','), dig, dig, dig]

/-- `NUM = (?:\d{1,3}(?:,\d{3})+|\d+)(?:[\.,]\d+)?`. -/
def numRE : RE :=
  .seq (.alt (.seq d13 (rplus thouGrp)) (rplus dig))
    (ropt (.seq (.cls (fun c => c = '.' || c = ',')) (rplus dig)))

/-- `[-–]`. -/
def hyph : RE := .cls (fun c => c = '-' || c = '–')

def RANGE_X_Y : RE := rseq [wordBnd, .grp 1 numRE, sp0, hyph, sp0, .grp 2 numRE, wordBnd]

def RANGE_TO : RE := rseq [wordBnd, .grp 1 numRE, sp0, ilit "to", sp0, .grp 2 numRE, wordBnd]

def PAREN_X_Y : RE := rseq [lit "(", .grp 1 numRE, sp0, hyph, sp0, .grp 2 numRE, lit ")"]

/-- `(?!\S)`: the next character, if any, is whitespace. -/
def noNextNonspace : RE := .bound (fun _ n => match n with | none => true | some c => isSpaceC c)

def RANGE_LE : RE := rseq [.alt (lit "≤") (lit "<="), sp0, .grp 1 numRE, noNextNonspace]

def RANGE_GE : RE := rseq [.alt (lit "≥") (lit ">="), sp0, .grp 1 numRE, noNextNonspace]

def RANGE_ALT_LE : RE :=
  rseq [.cls (fun c => c = '·' || c = '•'), sp0, .grp 1 numRE, noNextNonspace]

/-- `[:\s]+`. -/
def colonOrSpace : RE := rplus (.cls (fun c => c = ':' || isSpaceC c))

def REF_RANGE : RE :=
  rseq [ilit "reference", sp0, .alt (ilit "range") (ilit "interval"), colonOrSpace,
    .grp 1 numRE, sp0, hyph, sp0, .grp 2 numRE]

def REF_ANY : RE :=
  rseq [ralt [
      rseq [ilit "ref", ropt (ilit "erence"), sp0, .alt (ilit "range") (ilit "interval")],
      rseq [ilit "normal", sp0, ilit "range"],
      ilit "range",
      rseq [ilit "ref", sp0, lit ":"]],
    colonOrSpace, .grp 1 numRE, sp0, hyph, sp0, .grp 2 numRE]

/-- `UNIT_TOKEN` (case-sensitive, ordered alternation as in the source). -/
def UNIT_TOKEN : RE := ralt [
  lit "%", lit "mg/dL", lit "g/dL", lit "mmol/L", lit "ng/mL", lit "pg/mL",
  lit "mIU/L", lit "IU/L", lit "U/L",
  rseq [ropt (lit "x"), lit "10^", rplus dig, lit "/",
    rplus (.cls (fun c => c.isAlpha || c = 'μ'))],
  rseq [lit "10^", rplus dig, ropt (lit "/"), lit "L"],
  rseq [.cls (fun c => c.isAlpha || c = 'μ' || c = 'µ' || c = '%'),
    .star (.cls (fun c => isWordC c || c = '/' || c = '^' || c = '%'))]]

/-- `<|>|≤|≥|<=|>=` in source order. -/
def compRE : RE := ralt [lit "<", lit ">", lit "≤", lit "≥", lit "<=", lit ">="]

/-- `(?<![A-Za-z0-9])(?P<comp>...)?\s*(?P<val>NUM)\s*(?P<unit>...)?\b`. -/
def VALUE_WITH_UNIT : RE :=
  rseq [.bound (fun p _ => match p with | none => true | some c => ¬ c.isAlphanum),
    ropt (.grp 1 compRE), sp0, .grp 2 numRE, sp0, ropt (.grp 3 UNIT_TOKEN), wordBnd]

def POS_NEG : RE :=
  rseq [wordBnd,
    .grp 1 (ralt [ilit "positive", ilit "negative",
      rseq [ilit "non", ropt (.cls (fun c => c = '-' || c = ' ')), ilit "reactive"],
      ilit "reactive"]),
    wordBnd]

def END_FLAG_TAIL : RE :=
  rseq [ropt (.cls (fun c => c = '[' || c = '(')), sp0,
    .grp 1 (ralt [ilit "High", ilit "Low", ilit "H", ilit "L", lit "↑", lit "↓"]),
    ropt (rseq [sp0, .cls (fun c => c = ']' || c = ')')]), sp0, atEnd]

/-- `(?<![A-Za-z])NUM`. -/
def FIRST_NUMBER_POS : RE :=
  .seq (.bound (fun p _ => match p with | none => true | some c => ¬ c.isAlpha)) numRE

def SECTION_HEADER : RE :=
  rseq [atStart, ralt [
      rseq [ilit "comprehensive", rplus spc, ilit "metabolic", rplus spc, ilit "panel"],
      rseq [ilit "complete", rplus spc, ilit "blood", rplus spc, ilit "count"],
      rseq [ilit "lipid", rplus spc, ilit "panel"],
      rseq [ilit "thyroid", rplus spc, ilit "function"],
      ilit "vitamins",
      rseq [ilit "edge", .star (.cls (fun c => c = '-' || isSpaceC c)), ilit "case",
        .star (.cls (fun c => ¬ (c = '\n'))), ilit "parsing"]],
    sp0, ropt (lit "("), atEnd]

def ONLY_COMPARATOR : RE :=
  rseq [atStart, ropt (lit "("), sp0,
    ralt [lit "≤", lit ">=", lit "≥", lit "<=", lit "<", lit ">"],
    sp0, numRE, sp0, ropt (lit ")"), sp0, atEnd]

def BARE_PAREN : RE := rseq [atStart, lit "(", sp0, ropt (lit ")"), atEnd]

def JUNK_NAME : RE :=
  rseq [rplus (.cls (fun c => isSpaceC c || c = '(' || c = ')' || c = '[' || c = ']' ||
    c = '{' || c = '}' || c = '·' || c = '•' || c = '≤' || c = '≥')), atEnd]

/-- `analy[sz]er`. -/
def analyzerRE : RE :=
  rseq [ilit "analy", .cls (fun c => c = 's' || c = 'z' || c = 'S' || c = 'Z'), ilit "er"]

def NOISE : RE :=
  rseq [atStart, ralt [
    rseq [ilit "page", sp0, rplus dig],
    ilit "confidential",
    rseq [ilit "laboratory", sp0, ilit "report"],
    ilit "patient:", ilit "dob:", ilit "collected:",
    rseq [ilit "collection", sp0, ilit "time", ropt (lit ":")],
    ilit "reported:",
    rseq [ilit "report", sp0, ilit "summary"],
    rseq [ilit "results", wordBnd],
    rseq [ilit "comprehensive", sp0, ilit "laboratory", sp0, ilit "report"],
    rseq [ilit "test", sp0, ilit "result", sp0, ilit "units"],
    rseq [ilit "reference", sp0, ilit "range", sp0, ilit "flag"],
    rseq [ilit "metabolic", sp0, ilit "panel"],
    rseq [ilit "lipid", sp0, ilit "profile"],
    rseq [ilit "complete", sp0, ilit "blood", sp0, ilit "count"],
    rseq [ilit "cbc", wordBnd],
    rseq [ilit "biochemistry", wordBnd],
    rseq [ilit "hematology", wordBnd],
    rseq [ilit "method", ropt (lit ":")],
    rseq [analyzerRE, ropt (lit ":")],
    rseq [ilit "specimen", ropt (lit ":")],
    rseq [ilit "clinical", sp0, ilit "correlation"],
    ilit "watermark",
    rseq [ilit "do", sp0, ilit "not", sp0, ilit "copy"],
    rseq [ilit "for", sp0, ilit "information"],
    ilit "note:",
    rseq [ilit "end", sp0, ilit "of", sp0, ilit "report"],
    rseq [lit "•", spc],
    rseq [.cls (fun c => c = '-' || c = '·' || c = '•'), spc]]]

def META_NAME : RE :=
  rseq [atStart, ralt [
    rseq [ilit "report", sp0, ilit "id"],
    ilit "mrn",
    ilit "location",
    rseq [ilit "report", sp0, ilit "date"],
    rseq [ilit "referring", sp0, ilit "doctor"],
    rseq [ilit "doctor", wordBnd],
    rseq [ilit "physician", wordBnd],
    rseq [ilit "collection", sp0, ilit "time"],
    rseq [ilit "collected", sp0, ilit "time"],
    rseq [ilit "reported", sp0, ilit "time"],
    rseq [ilit "accession", sp0, ilit "no", ropt (lit ".")],
    rseq [ilit "sample", sp0, ralt [ilit "id", rseq [ilit "no", ropt (lit ".")], ilit "type"]],
    rseq [ilit "specimen", sp0, .alt (ilit "id") (ilit "type")],
    rseq [ilit "patient", sp0, ropt (ralt [ilit "name", ilit "id", ilit "mrn", ilit "uhid"]),
      wordBnd],
    rseq [ilit "age", wordBnd], rseq [ilit "sex", wordBnd], rseq [ilit "gender", wordBnd],
    rseq [ilit "lab", sp0, .alt (rseq [ilit "no", ropt (lit ".")]) (ilit "id")],
    rseq [ilit "barcode", wordBnd],
    rseq [ilit "receipt", sp0, ilit "date"],
    rseq [ilit "receipt", sp0, ilit "no", ropt (lit ".")],
    rseq [ilit "clinic", wordBnd], rseq [ilit "department", wordBnd],
    rseq [ilit "ward", wordBnd], rseq [ilit "hospital", wordBnd],
    rseq [ilit "method", wordBnd],
    rseq [analyzerRE, wordBnd],
    rseq [ilit "specimen", wordBnd],
    rseq [ilit "comment", wordBnd], rseq [ilit "narrative", wordBnd]]]

def ANY_META_TOKEN : RE :=
  rseq [wordBnd, ralt [
    ilit "mrn",
    rseq [ilit "patient", sp0, ralt [ilit "name", ilit "id", ilit "mrn", ilit "uhid"]],
    rseq [ilit "report", sp0, ilit "id"],
    rseq [ilit "accession", sp0, .alt (rseq [ilit "no", ropt (lit ".")]) (ilit "number")],
    ilit "location", ilit "clinic", ilit "department", ilit "ward", ilit "hospital",
    rseq [ilit "laboratory", sp0, ropt (.alt (ilit "id") (ilit "number"))],
    rseq [ilit "lab", sp0, .alt (rseq [ilit "no", ropt (lit ".")]) (ilit "id")],
    ilit "barcode", ilit "dob"], wordBnd]

/-- `^(?P<comp>...)\s*(?P<val>NUM)$`. -/
def COMP_VAL : RE := rseq [atStart, .grp 1 compRE, sp0, .grp 2 numRE, atEnd]

/-- `\d{1,3}(?:,\d{3})+` used with `re.fullmatch`. -/
def THOUSANDS : RE := rseq [d13, rplus thouGrp, atEnd]

/-! ### Number normalization and conversion -/

def remCommas (s : String) : String := String.mk (s.data.filter (fun c => ¬ (c = ',')))

def commasToDots (s : String) : String :=
  String.mk (s.data.map (fun c => if c = ',' then '.' else c))

/-- `_normalize_number_str`. -/
def normalizeNumberStr (s : String) : String :=
  let s := pyStrip s
  if s.data.contains ',' ∧ s.data.contains '.' then remCommas s
  else if s.data.contains ',' ∧ ¬ s.data.contains '.' then
    if (reMatchAt THOUSANDS s.data).isSome then remCommas s
    else commasToDots s
  else s

/-- `_to_float` (`none` models a raised `ValueError`). -/
def toFloat (s : String) : Option Dec := parseDec (normalizeNumberStr s)

/-! ### Unit and name canonicalization -/

def unitPairs : List (String × String) :=
  [("mg/dl", "mg/dL"), ("g/dl", "g/dL"), ("ng/ml", "ng/mL"), ("pg/ml", "pg/mL"),
   ("miu/l", "mIU/L"), ("iu/l", "IU/L"), ("u/l", "U/L"),
   ("uiu/ml", "μIU/mL"), ("μiu/ml", "μIU/mL"), ("µiu/ml", "μIU/mL"),
   ("x10^9/l", "x10^9/L"), ("x10^3/μl", "x10^3/μL"), ("x10^3/ul", "x10^3/μL"),
   ("10^3/μl", "10^3/μL"), ("10^3/ul", "10^3/μL"), ("mmol/l", "mmol/L"), ("%", "%")]

/-- `u.replace("/l", "/L")` (left-to-right, non-overlapping). -/
def replaceSlashL : List Char → List Char
  | '/' :: 'l' :: t => '/' :: 'L' :: replaceSlashL t
  | c :: t => c :: replaceSlashL t
  | [] => []

/-- `_normalize_unit`. -/
def normalizeUnit (unit : Option String) : Option String :=
  match unit with
  | none => none
  | some u0 =>
    if u0 = "" then none
    else
      let u := String.mk (u0.data.map (fun c => if c = 'µ' then 'μ' else c))
      let lu := pyLower u
      match unitPairs.lookup lu with
      | some v => some v
      | none => some (String.mk (replaceSlashL u.data))

def canonPairs : List (String × String) :=
  [("hba1c", "Hemoglobin A1c"), ("hemoglobin a1c", "Hemoglobin A1c"),
   ("alt", "ALT"), ("sgpt", "ALT"), ("ast", "AST"), ("sgot", "AST"),
   ("hdl", "HDL Cholesterol"), ("ldl", "LDL Cholesterol"),
   ("tsh", "TSH"), ("wbc", "WBC"), ("rbc", "RBC"),
   ("hbsag", "Hep B Surface Antigen"), ("crp", "CRP"),
   ("vitamin b12", "Vitamin B12"), ("haemoglobin", "Hemoglobin"),
   ("hemoglobin", "Hemoglobin"), ("vitamin d", "Vitamin D"),
   ("25 oh vitamin d", "Vitamin D (25-OH)")]

/-- `re.sub(r"[^A-Za-z0-9\s]+", " ", name)`: each run of other chars
becomes one space. -/
def subNonAlnumRunsAux : Nat → List Char → List Char
  | 0, _ => []
  | _, [] => []
  | fuel + 1, c :: t =>
    if c.isAlphanum || isSpaceC c then c :: subNonAlnumRunsAux fuel t
    else ' ' :: subNonAlnumRunsAux fuel
      (t.dropWhile (fun x => ¬ (x.isAlphanum || isSpaceC x)))

def subNonAlnumRuns (l : List Char) : List Char := subNonAlnumRunsAux (l.length + 1) l

/-- `_canonicalize_name` (`none` = Python `None`). -/
def canonicalizeName (name : String) : Option String :=
  if name = "" then none
  else
    let b1 := pyLower (String.mk (stripChars isSpaceC (subNonAlnumRuns name.data)))
    let base := String.mk (collapseWs b1.data)
    match canonPairs.lookup base with
    | some v => some v
    | none =>
      match canonPairs.find? (fun kv => kv.1.data.isPrefixOf base.data) with
      | some kv => some kv.2
      | none => some name

/-! ### Data model -/

inductive Value where
  | num (d : Dec) : Value
  | str (s : String) : Value
deriving DecidableEq, Repr

/-- `str(value)` (the float case uses the exact-decimal `repr`). -/
def strValue : Value → String
  | .num d => showDec d
  | .str s => s

structure ParsedRow where
  test_name : String
  value : Value
  unit : Option String
  reference_range : Option String
  flag : Option String
  confidence : Nat
  test_name_raw : Option String := none
  unit_raw : Option String := none
  comparator : Option String := none
  value_text : Option String := none
  value_num : Option Dec := none
  page : Option Nat := none
  bbox : Option (Nat × Nat × Nat × Nat) := none
  raw_line : Option String := none
deriving DecidableEq, Repr

/-- Extraction result of `_extract_range`:
`(range_str, range_tuple, le, ge)`. -/
structure RangeInfo where
  str : Option String
  tuple : Option (Dec × Dec)
  le : Option Dec
  ge : Option Dec
deriving DecidableEq, Repr

def renderClosed (l h : Dec) : String := showDec l ++ "-" ++ showDec h
def renderLE (n : Dec) : String := "≤ " ++ showDec n
def renderGE (n : Dec) : String := "≥ " ++ showDec n

def rangePairSearch (re : RE) (seg : String) : Option (String × String) :=
  (reSearch re seg.data).bind (fun x =>
    match capGet x.2.2 1, capGet x.2.2 2 with
    | some (a, b), some (c, d) => some (sliceStr seg.data a b, sliceStr seg.data c d)
    | _, _ => none)

def rangeOneSearch (re : RE) (seg : String) : Option String :=
  (reSearch re seg.data).bind (fun x =>
    (capGet x.2.2 1).map (fun ab => sliceStr seg.data ab.1 ab.2))

def toFloatE (s : String) : Except Unit Dec :=
  match toFloat s with
  | some d => .ok d
  | none => .error ()

def closedR (lo hi : String) : Except Unit RangeInfo :=
  match toFloatE lo with
  | .error e => .error e
  | .ok l =>
    match toFloatE hi with
    | .error e => .error e
    | .ok h => .ok ⟨some (renderClosed l h), some (l, h), none, none⟩

def leR (s : String) : Except Unit RangeInfo :=
  match toFloatE s with
  | .error e => .error e
  | .ok n => .ok ⟨some (renderLE n), none, some n, none⟩

def geR (s : String) : Except Unit RangeInfo :=
  match toFloatE s with
  | .error e => .error e
  | .ok n => .ok ⟨some (renderGE n), none, none, some n⟩

/-- `_extract_range`.  The `Except` layer records that `_to_float` here is
NOT guarded by any `try`: a conversion failure escapes as an exception. -/
def extractRange (seg : String) : Except Unit RangeInfo :=
  match (rangePairSearch REF_RANGE seg).orElse (fun _ => rangePairSearch REF_ANY seg) with
  | some (lo, hi) => closedR lo hi
  | none =>
  match rangePairSearch PAREN_X_Y seg with
  | some (lo, hi) => closedR lo hi
  | none =>
  match rangePairSearch RANGE_X_Y seg with
  | some (lo, hi) => closedR lo hi
  | none =>
  match rangePairSearch RANGE_TO seg with
  | some (lo, hi) => closedR lo hi
  | none =>
  match rangeOneSearch RANGE_LE seg with
  | some s => leR s
  | none =>
  match rangeOneSearch RANGE_ALT_LE seg with
  | some s => leR s
  | none =>
  match rangeOneSearch RANGE_GE seg with
  | some s => geR s
  | none => .ok ⟨none, none, none, none⟩

/-! ### Flag classification (`_compute_flag`) -/

def isLtComp (c : String) : Bool := c = "<" || c = "<=" || c = "≤"
def isGtComp (c : String) : Bool := c = ">" || c = ">=" || c = "≥"

/-- `_COMP_VAL.match(value.strip())`: comparator and numeral of a
comparator-prefixed value string. -/
def compValMatch (s : String) : Option (String × String) :=
  (reMatchAt COMP_VAL s.data).bind (fun x =>
    match capGet x.2 1, capGet x.2 2 with
    | some (a, b), some (c, d) => some (sliceStr s.data a b, sliceStr s.data c d)
    | _, _ => none)

/-- The comparator logic of `_compute_flag` once `v_bound` is known.
Each stage mirrors one `if` block with its early `return`s; the outer
`Option` layer is "this block returned". -/
def flagComp (comp : String) (v : Dec) (rt : Option (Dec × Dec)) (le ge : Option Dec) :
    Option String :=
  let stageRT : Option (Option String) :=
    match rt with
    | some (low, high) =>
      if isLtComp comp then
        some (if decLT v low then some "low"
              else if decLE v high then some "normal" else none)
      else if isGtComp comp then
        some (if decLT high v then some "high" else none)
      else none
    | none => none
  match stageRT with
  | some r => r
  | none =>
    let stageLE : Option (Option String) :=
      match le with
      | some l =>
        if isLtComp comp then some (if decLE v l then some "normal" else none)
        else if isGtComp comp then some (if decLT l v then some "high" else none)
        else none
      | none => none
    match stageLE with
    | some r => r
    | none =>
      match ge with
      | some g =>
        if isGtComp comp then (if decLE g v then some "normal" else none)
        else if isLtComp comp then (if decLT v g then some "low" else none)
        else none
      | none => none

/-- The qualitative-vocabulary tail of `_compute_flag`. -/
def posNegFlag (value : String) : Option String :=
  let val := pyLower value
  if val = "positive" || val = "reactive" then some "abnormal"
  else if val = "negative" || val = "non-reactive" || val = "non reactive" ||
          val = "nonreactive" then some "normal"
  else none

/-- `_compute_flag`. -/
def computeFlag (value : Value) (rt : Option (Dec × Dec)) (le ge : Option Dec) :
    Option String :=
  match value with
  | .str s =>
    (match compValMatch (pyStrip s) with
     | some (comp, vstr) =>
       match toFloat vstr with
       | some v => flagComp comp v rt le ge
       | none => posNegFlag s      -- conversion failed: fall through to pos/neg
     | none => posNegFlag s)
  | .num v =>
    match rt with
    | some (low, high) =>
      if decLT v low then some "low"
      else if decLT high v then some "high"
      else some "normal"
    | none =>
      match le with
      | some l => some (if decLE v l then "normal" else "high")
      | none =>
        match ge with
        | some g => some (if decLE g v then "normal" else "low")
        | none => none

/-! ### Confidence (`_confidence`), over exact rationals -/

def optTruthy : Option String → Bool
  | none => false
  | some s => ¬ (s = "")

/-- `_confidence`, with the score kept in integer hundredths
(0.2/0.4/0.2/0.15/0.05 become 20/40/20/15/5; the clamp to `[0,1]` becomes
`min 100`, the lower clamp being automatic on `Nat`). -/
def confidence (row : ParsedRow) : Nat :=
  let s1 : Nat := if row.test_name ≠ "" then 20 else 0
  let s2 := s1 + 40            -- `row.value is not None`: always true for a built row
  let s3 := if optTruthy row.unit then s2 + 20 else s2
  let s4 := if optTruthy row.reference_range then s3 + 15 else s3
  let s5 := if optTruthy row.flag then s4 + 5 else s4
  min 100 s5

/-! ### `parse_text` -/

/-- The values extracted from one cell by lines 389–437 of the source. -/
structure VMatch where
  comp : Option String
  val : String
  valStart : Nat
  unit : Option String
  endPos : Nat
deriving DecidableEq, Repr

def valueUnitSearch (line : String) : Option VMatch :=
  (reSearch VALUE_WITH_UNIT line.data).bind (fun x =>
    (capGet x.2.2 2).map (fun ab =>
      { comp := (capGet x.2.2 1).map (fun uv => sliceStr line.data uv.1 uv.2),
        val := sliceStr line.data ab.1 ab.2,
        valStart := ab.1,
        unit := (capGet x.2.2 3).map (fun uv => sliceStr line.data uv.1 uv.2),
        endPos := x.2.1 }))

def posNegFind (line : String) : Option String :=
  (reSearch POS_NEG line.data).bind (fun x =>
    (capGet x.2.2 1).map (fun ab => sliceStr line.data ab.1 ab.2))

def firstNumberStart (line : String) : Option Nat :=
  (reSearch FIRST_NUMBER_POS line.data).map (fun x => x.1)

def noiseHit (line : String) : Bool := (reMatchAt NOISE line.data).isSome
def sectionHit (line : String) : Bool := (reMatchAt SECTION_HEADER line.data).isSome
def bareParenHit (line : String) : Bool := (reMatchAt BARE_PAREN line.data).isSome
def onlyCompHit (line : String) : Bool := (reMatchAt ONLY_COMPARATOR line.data).isSome
def junkNameHit (s : String) : Bool := (reMatchAt JUNK_NAME s.data).isSome
def metaNameHit (s : String) : Bool := (reMatchAt META_NAME s.data).isSome
def anyMetaHit (s : String) : Bool := (reSearch ANY_META_TOKEN s.data).isSome

def hasNumber (line : String) : Bool :=
  (firstNumberStart line).isSome || (posNegFind line).isSome

/-- `H/L/↑/↓` tail token mapped to a flag. -/
def endFlagOf (tail : String) : Option String :=
  (reSearch END_FLAG_TAIL tail.data).bind (fun x =>
    (capGet x.2.2 1).bind (fun ab =>
      let tok := pyLower (sliceStr tail.data ab.1 ab.2)
      if tok = "h" || tok = "high" || tok = "↑" then some "high"
      else if tok = "l" || tok = "low" || tok = "↓" then some "low"
      else none))

/-- `line[:p]` over characters. -/
def takeStr (line : String) (p : Nat) : String := String.mk (line.data.take p)

/-- `line[p:]` over characters. -/
def dropStr (line : String) (p : Nat) : String := String.mk (line.data.drop p)

/-- `line.split(":", 1)[0].strip()` when the line has a colon. -/
def colonName (line : String) : Option String :=
  if line.data.contains ':' then
    some (pyStrip (String.mk (line.data.takeWhile (fun c => ¬ (c = ':')))))
  else none

/-- Name/value/unit extraction state after lines 389–437. -/
structure NV where
  pm : Option String
  vm : Option VMatch
  value : Option Value
  comp : Option String
  rawVal : Option String
  unit : Option String
  name0 : Option String
deriving DecidableEq, Repr

/-- Derive the candidate name from a split position (lines 428–437). -/
def nameFromSplit (line : String) : Option Nat → Option String
  | some p =>
    let nm := stripNameChars (takeStr line p)
    if nm ≠ "" ∧ junkNameHit nm then none else some nm
  | none => colonName line

def extractNV (line : String) : NV :=
  match posNegFind line with
  | some ptext =>
    { pm := some ptext, vm := none,
      value := some (.str (pyCapitalize ptext)),
      comp := none, rawVal := none, unit := none,
      name0 := nameFromSplit line none }
  | none =>
    match valueUnitSearch line with
    | some vm =>
      { pm := none, vm := some vm,
        value := some (match vm.comp with
          | some c => .str (c ++ vm.val)
          | none => match toFloat vm.val with
            | some d => .num d            -- float conversion succeeded
            | none => .str vm.val),       -- `except`: keep the raw string
        comp := vm.comp, rawVal := some vm.val,
        unit := normalizeUnit vm.unit,
        name0 := nameFromSplit line (some vm.valStart) }
    | none =>
      { pm := none, vm := none, value := none, comp := none, rawVal := none,
        unit := none, name0 := nameFromSplit line (firstNumberStart line) }

/-- Parser state: `pending_name`, the emitted rows, the unparsed lines. -/
structure St where
  pending : Option String
  rows : List ParsedRow
  unparsed : List String
deriving DecidableEq, Repr

/-- Lines 452–457: give the last row the newly found range, recompute its
flag (keeping the old one when the recomputation is null), refresh its
confidence. -/
def attachRange (last : ParsedRow) (rstr : String) (ri : RangeInfo) : ParsedRow :=
  let withRange := { last with reference_range := some rstr }
  let withFlag := { withRange with
    flag := match computeFlag last.value ri.tuple ri.le ri.ge with
      | some f => some f
      | none => withRange.flag }
  { withFlag with confidence := confidence withFlag }

/-- Lines 446–461: a cell with no derivable name either donates its range to
the last row (if that row has none) or lands in `unparsed`. -/
def orphanAttach (st : St) (line : String) (ri : RangeInfo) : St :=
  match ri.str with
  | some rstr =>
    match st.rows.getLast? with
    | some last =>
      if last.reference_range = none then
        { st with rows := st.rows.dropLast ++ [attachRange last rstr ri] }
      else { st with unparsed := st.unparsed ++ [line] }
    | none => { st with unparsed := st.unparsed ++ [line] }
  | none => { st with unparsed := st.unparsed ++ [line] }

/-- Build the row emitted at lines 493–510. -/
def mkRow (line : String) (ri : RangeInfo) (nv : NV) (name0 n : String) (v : Value) :
    ParsedRow :=
  let tail := match nv.vm with | some vm => dropStr line vm.endPos | none => ""
  let explicitFlag := if tail = "" then none else endFlagOf tail
  let flag0 := computeFlag v ri.tuple ri.le ri.ge
  let flag := match explicitFlag with | some f => some f | none => flag0
  let value_text := match nv.comp, nv.rawVal with
    | some c, some rv => c ++ rv
    | _, _ => strValue v
  let value_num := match nv.comp, v with
    | none, .num d => some d
    | _, _ => none
  let row : ParsedRow :=
    { test_name := n, value := v, unit := nv.unit,
      reference_range := ri.str, flag := flag, confidence := 0,
      test_name_raw := some name0, unit_raw := (nv.vm.bind (fun vm => vm.unit)),
      comparator := nv.comp, value_text := some value_text, value_num := value_num,
      page := none, bbox := none, raw_line := some line }
  { row with confidence := confidence row }

/-- Lines 463–513 after the name was derived: drop metadata, or emit,
or record as unparsed. -/
def emitOrUnparsed (st : St) (line : String) (ri : RangeInfo) (nv : NV) (name0 : String) :
    St :=
  match canonicalizeName name0, nv.value with
  | some n, some v =>
    if n ≠ "" then { st with rows := st.rows ++ [mkRow line ri nv name0 n v] }
    else { st with unparsed := st.unparsed ++ [line] }
  | _, _ => { st with unparsed := st.unparsed ++ [line] }

/-- Lines 439–442: `if name and (META_NAME.search(name) or ANY_META_TOKEN.search(name))`. -/
def dropAsMeta : Option String → Bool
  | some nm => (¬ (nm = "")) && (metaNameHit nm || anyMetaHit nm)
  | none => false

/-- The whole per-cell logic after range extraction (lines 401–513). -/
def processCore (st : St) (line : String) (ri : RangeInfo) : St :=
  if dropAsMeta (extractNV line).name0 then st
  else
    match (extractNV line).name0 with
    | none => orphanAttach st line ri
    | some name0 => emitOrUnparsed st line ri (extractNV line) name0

/-- `pending_name` merge (lines 385–387). -/
def mergePending : Option String → String → String
  | some p, line => p ++ " " ++ line
  | none, line => line

/-- The loop body of `parse_text` on an already-cleaned cell. -/
def processCellLine (st : St) (line : String) : Except Unit St :=
  if line = "" then .ok st
  else if noiseHit line then .ok st
  else if sectionHit line then .ok { st with pending := none }
  else if bareParenHit line ∨ onlyCompHit line then
    .ok { st with unparsed := st.unparsed ++ [line] }
  else if ¬ hasNumber line then
    .ok (if metaNameHit line then st else { st with pending := some line })
  else
    match extractRange (mergePending st.pending line) with
    | .error e => .error e
    | .ok ri =>
      .ok (processCore { st with pending := none } (mergePending st.pending line) ri)

/-- One cell through the loop body of `parse_text` (lines 364–513). -/
def processCell (st : St) (seg : String) : Except Unit St :=
  processCellLine st (cleanLine seg)

/-- The cell stream: split lines, then columns
(`_split_columns_raw(raw_line) or [raw_line]`). -/
def cells (text : String) : List String :=
  (splitlinesPy text).flatMap (fun raw =>
    let segs := splitColumnsRaw raw
    if segs.isEmpty then [raw] else segs)

/-- `parse_text`.  `.error ()` models an exception escaping the function. -/
def parseText (text : String) : Except Unit (List ParsedRow × List String) :=
  match (cells text).foldlM processCell ⟨none, [], []⟩ with
  | .error e => .error e
  | .ok st => .ok (st.rows, st.unparsed)

/-- The explicit trailing-flag marker the emission path reads from a line
(recomputed from the line text; deterministic). -/
def explicitFlagOfLine (line : String) : Option String :=
  match posNegFind line with
  | some _ => none
  | none =>
    match valueUnitSearch line with
    | some vm =>
      let tail := dropStr line vm.endPos
      if tail = "" then none else endFlagOf tail
    | none => none

/-! ### Specification-side predicates used by the invariant theorems -/

/-- A numeral as the range renderer prints it: digits, one dot, digits. -/
def isNumeralChars (l : List Char) : Bool :=
  (¬ (l.takeWhile Char.isDigit).isEmpty) &&
  (match l.dropWhile Char.isDigit with
   | '.' :: t => (¬ t.isEmpty) && t.all Char.isDigit
   | _ => false)

/-- Split a range string at its (first) hyphen. -/
def splitHyph (l : List Char) : Option (List Char × List Char) :=
  match l.dropWhile (fun c => ¬ (c = '-')) with
  | '-' :: b => some (l.takeWhile (fun c => ¬ (c = '-')), b)
  | _ => none

/-- The three canonical reference-range shapes of the spec:
`numeral-numeral`, `≤ numeral`, `≥ numeral`. -/
def isCanonicalRange (s : String) : Bool :=
  (match splitHyph s.data with
   | some (a, b) => isNumeralChars a && isNumeralChars b
   | none => false)
  || (match s.data with
      | '≤' :: ' ' :: t => isNumeralChars t
      | '≥' :: ' ' :: t => isNumeralChars t
      | _ => false)

/-- The tail of a scientific-notation numeral after its leading digit:
an optional `.`-plus-digits fraction, then `e`, a sign, and digits. -/
def sciTailChars : List Char → Bool
  | 'e' :: s :: es => (s = '+' || s = '-') && (¬ es.isEmpty) && es.all Char.isDigit
  | '.' :: rest =>
    (¬ (rest.takeWhile Char.isDigit).isEmpty) &&
    (match rest.dropWhile Char.isDigit with
     | 'e' :: s :: es => (s = '+' || s = '-') && (¬ es.isEmpty) && es.all Char.isDigit
     | _ => false)
  | _ => false

/-- A numeral in Python scientific notation: `1e-05`, `1.5e+16`. -/
def isSciNumeral (l : List Char) : Bool :=
  match l with
  | c :: rest => c.isDigit && sciTailChars rest
  | [] => false

/-- A numeral as `repr(float(...))` may print it: positional or scientific. -/
def isPyNumeral (l : List Char) : Bool := isNumeralChars l || isSciNumeral l

def prevDigit : Option Char → Bool
  | some p => p.isDigit
  | none => false

/-- No `'-'` in the list is immediately preceded by a digit (`prev` is the
character just before the list's head). In a rendered float the only
hyphens are exponent signs, which follow `'e'`. -/
def noDigitHyph : Option Char → List Char → Bool
  | _, [] => true
  | prev, c :: t => (!(c = '-' && prevDigit prev)) && noDigitHyph (some c) t

def splitDigitHyphGo : Option Char → List Char → List Char → Option (List Char × List Char)
  | _, _, [] => none
  | prev, acc, c :: t =>
    if c = '-' && prevDigit prev then some (acc.reverse, t)
    else splitDigitHyphGo (some c) (c :: acc) t

/-- Split a range string at its separator: the first `'-'` that follows a
digit (an exponent sign follows `'e'`, never a digit). -/
def splitDigitHyph (l : List Char) : Option (List Char × List Char) :=
  splitDigitHyphGo none [] l

/-- The range string begins with a digit: true of the closed `low-high`
shape (a rendered float starts with a digit), false of the `≤`/`≥`
threshold shapes. -/
def headIsDigit (s : String) : Bool :=
  match s.data with
  | c :: _ => c.isDigit
  | [] => false

/-- The three canonical shapes with each bound rendered as Python renders
the float — positionally, or scientifically for magnitudes outside
`[1e-4, 1e16)`: `numeral-numeral`, `≤ numeral`, `≥ numeral`. -/
def isCanonicalRangeSci (s : String) : Bool :=
  (match splitDigitHyph s.data with
   | some (a, b) => isPyNumeral a && isPyNumeral b
   | none => false)
  || (match s.data with
      | '≤' :: ' ' :: t => isPyNumeral t
      | '≥' :: ' ' :: t => isPyNumeral t
      | _ => false)

/-- The numeric-value-vs-closed-range rule of `_compute_flag`. -/
def numFlag (v l h : Dec) : Option String :=
  if decLT v l then some "low"
  else if decLT h v then some "high"
  else some "normal"

/-- The invariant each emitted row satisfies: non-empty name, canonical
range shape, and — for a plain numeric value against a closed range (the
digit-initial shape; thresholds start with `≤`/`≥`) — a flag that is
either the classifier's verdict or an explicit trailing-marker override
read off the row's own line. -/
def RowInv (row : ParsedRow) : Prop :=
  row.test_name ≠ ""
  ∧ (∀ s, row.reference_range = some s → isCanonicalRangeSci s = true)
  ∧ (∀ v s, row.value = .num v → row.reference_range = some s → headIsDigit s = true →
      ∃ l h, s = renderClosed l h ∧
        ((∃ ln, row.raw_line = some ln ∧ explicitFlagOfLine ln ≠ none ∧
            row.flag = explicitFlagOfLine ln)
         ∨ row.flag = numFlag v l h))

def StInv (st : St) : Prop := ∀ r ∈ st.rows, RowInv r

/-- The four shapes `_extract_range` can return. -/
def RangeCases (ri : RangeInfo) : Prop :=
  ri = ⟨none, none, none, none⟩
  ∨ (∃ l h, ri = ⟨some (renderClosed l h), some (l, h), none, none⟩)
  ∨ (∃ n, ri = ⟨some (renderLE n), none, some n, none⟩)
  ∨ (∃ n, ri = ⟨some (renderGE n), none, none, some n⟩)

/-! ### Concrete rows used by the witness theorems -/

/-- The row `parse_text` emits for `"A 5 (1-9)"`. -/
def wrowA : ParsedRow :=
  { test_name := "A", value := .num ⟨5, 0⟩, unit := none,
    reference_range := some "1.0-9.0", flag := some "normal", confidence := 80,
    test_name_raw := some "A", unit_raw := none, comparator := none,
    value_text := some "5.0", value_num := some ⟨5, 0⟩,
    raw_line := some "A 5 (1-9)" }

/-- The row `parse_text` emits for `"Ferritin 15 ng/mL (13-150)"`. -/
def wrowF : ParsedRow :=
  { test_name := "Ferritin", value := .num ⟨15, 0⟩, unit := some "ng/mL",
    reference_range := some "13.0-150.0", flag := some "normal", confidence := 100,
    test_name_raw := some "Ferritin", unit_raw := some "ng/mL", comparator := none,
    value_text := some "15.0", value_num := some ⟨15, 0⟩,
    raw_line := some "Ferritin 15 ng/mL (13-150)" }

/-- The row `parse_text` emits for `"TSH 6.0 mIU/L 0.4 to 4.0"`. -/
def wrowT : ParsedRow :=
  { test_name := "TSH", value := .num ⟨6, 0⟩, unit := some "mIU/L",
    reference_range := some "0.4-4.0", flag := some "high", confidence := 100,
    test_name_raw := some "TSH", unit_raw := some "mIU/L", comparator := none,
    value_text := some "6.0", value_num := some ⟨6, 0⟩,
    raw_line := some "TSH 6.0 mIU/L 0.4 to 4.0" }

/-- A rangeless row, and the state holding it, for exercising orphan
attachment. -/
def wrow0 : ParsedRow :=
  { test_name := "X", value := .num ⟨5, 0⟩, unit := none,
    reference_range := none, flag := none, confidence := 60 }

def wst0 : St := ⟨none, [wrow0], []⟩

/-- `wrow0` after the orphan cell `"(1-9)"` attaches its range. -/
def wrow1 : ParsedRow :=
  { test_name := "X", value := .num ⟨5, 0⟩, unit := none,
    reference_range := some "1.0-9.0", flag := some "normal", confidence := 80 }

def wst1 : St := ⟨none, [wrow1], []⟩

/-! ## Canonical shapes of rendered range strings -/

theorem takeWhile_append_of_all (p : Char → Bool) (xs ys : List Char)
    (h : ∀ c ∈ xs, p c = true) :
    (xs ++ ys).takeWhile p = xs ++ ys.takeWhile p := by
  induction xs with
  | nil => simp
  | cons c t ih =>
    have hc : p c = true := h c (List.mem_cons_self _ _)
    simp only [List.cons_append, List.takeWhile_cons, hc, if_true]
    rw [ih (fun x hx => h x (List.mem_cons_of_mem _ hx))]

theorem dropWhile_append_of_all (p : Char → Bool) (xs ys : List Char)
    (h : ∀ c ∈ xs, p c = true) :
    (xs ++ ys).dropWhile p = ys.dropWhile p := by
  induction xs with
  | nil => simp
  | cons c t ih =>
    have hc : p c = true := h c (List.mem_cons_self _ _)
    simp only [List.cons_append, List.dropWhile_cons, hc, if_true]
    exact ih (fun x hx => h x (List.mem_cons_of_mem _ hx))

theorem digitChar_isDigit (m : Nat) (hm : m < 10) : (digitChar m).isDigit = true := by
  interval_cases m <;> decide

theorem natDigitsAux_spec :
    ∀ fuel n, n < fuel →
      (natDigitsAux fuel n).all Char.isDigit = true ∧ natDigitsAux fuel n ≠ [] := by
  intro fuel
  induction fuel with
  | zero => intro n h; omega
  | succ f ih =>
    intro n h
    simp only [natDigitsAux]
    split
    · rename_i h10
      refine ⟨?_, by simp⟩
      simp [digitChar_isDigit n h10]
    · rename_i h10
      have hn0 : 0 < n := by omega
      have hdiv : n / 10 < f := by
        have h1 : n / 10 < n := Nat.div_lt_self hn0 (by omega)
        omega
      obtain ⟨ha, hn⟩ := ih (n / 10) hdiv
      refine ⟨?_, by simp⟩
      rw [List.all_append, ha]
      simp [digitChar_isDigit (n % 10) (Nat.mod_lt _ (by omega))]

theorem natDigits_all (n : Nat) : (natDigits n).all Char.isDigit = true :=
  (natDigitsAux_spec (n + 1) n (Nat.lt_succ_self n)).1

theorem natDigits_ne_nil (n : Nat) : natDigits n ≠ [] :=
  (natDigitsAux_spec (n + 1) n (Nat.lt_succ_self n)).2

theorem mem_of_dropWhile_mem (q : Char → Bool) (l : List Char) (c : Char)
    (h : c ∈ l.dropWhile q) : c ∈ l := by
  induction l with
  | nil => simp [List.dropWhile] at h
  | cons a t ih =>
    rw [List.dropWhile_cons] at h
    split at h
    · exact List.mem_cons_of_mem a (ih h)
    · exact h

theorem stripZerosRight_all (p : Char → Bool) (l : List Char) (h : l.all p = true) :
    (stripZerosRight l).all p = true := by
  rw [List.all_eq_true] at h ⊢
  intro c hc
  unfold stripZerosRight at hc
  rw [List.mem_reverse] at hc
  have hc2 := mem_of_dropWhile_mem _ _ _ hc
  rw [List.mem_reverse] at hc2
  exact h c hc2

/-- The scientific rendering is `m`, an optional fraction, `e`, a sign, and
at least one exponent digit. -/
theorem sciChars_form (exp : Nat) (m : Char) (t : List Char)
    (ht : t.all Char.isDigit = true) :
    ∃ rest sign eds, sciChars exp m t = m :: (rest ++ 'e' :: sign :: eds) ∧
      (rest = [] ∨ ∃ fr, rest = '.' :: fr ∧ fr ≠ [] ∧ fr.all Char.isDigit = true) ∧
      (sign = '+' ∨ sign = '-') ∧ eds ≠ [] ∧ eds.all Char.isDigit = true := by
  have hstrip : (stripZerosRight t).all Char.isDigit = true := stripZerosRight_all _ _ ht
  have heds1 : ∀ n : Nat,
      (List.replicate (2 - (natDigits n).length) '0' ++ natDigits n) ≠ [] := by
    intro n
    simp [natDigits_ne_nil]
  have heds2 : ∀ n : Nat,
      (List.replicate (2 - (natDigits n).length) '0' ++ natDigits n).all Char.isDigit = true := by
    intro n
    rw [List.all_append, natDigits_all]
    simp only [Bool.and_true]
    rw [List.all_eq_true]
    intro c hc
    rw [List.eq_of_mem_replicate hc]
    decide
  have hsign : (if exp + 1 ≤ t.length + 1 then '+' else '-') = '+' ∨
      (if exp + 1 ≤ t.length + 1 then '+' else '-') = '-' := by
    by_cases hs : exp + 1 ≤ t.length + 1
    · exact Or.inl (if_pos hs)
    · exact Or.inr (if_neg hs)
  by_cases hre : (stripZerosRight t).isEmpty = true
  · refine ⟨[], if exp + 1 ≤ t.length + 1 then '+' else '-',
      List.replicate
          (2 - (natDigits (if exp + 1 ≤ t.length + 1 then t.length - exp
            else exp - t.length)).length) '0' ++
        natDigits (if exp + 1 ≤ t.length + 1 then t.length - exp else exp - t.length),
      ?_, Or.inl rfl, hsign, heds1 _, heds2 _⟩
    simp only [sciChars, if_pos hre]
    rfl
  · refine ⟨'.' :: stripZerosRight t, if exp + 1 ≤ t.length + 1 then '+' else '-',
      List.replicate
          (2 - (natDigits (if exp + 1 ≤ t.length + 1 then t.length - exp
            else exp - t.length)).length) '0' ++
        natDigits (if exp + 1 ≤ t.length + 1 then t.length - exp else exp - t.length),
      ?_, ?_, hsign, heds1 _, heds2 _⟩
    · simp only [sciChars, if_neg hre]
      rfl
    · refine Or.inr ⟨stripZerosRight t, rfl, ?_, hstrip⟩
      intro hnil
      rw [hnil] at hre
      exact hre rfl

/-- Every rendered float is positional `digits.digits` or scientific
`d[.digits]e±digits`. -/
theorem showDec_form (d : Dec) :
    (∃ ds fr, (showDec d).data = ds ++ '.' :: fr ∧ ds ≠ [] ∧ fr ≠ [] ∧
       ds.all Char.isDigit = true ∧ fr.all Char.isDigit = true)
    ∨ (∃ m rest sign eds, (showDec d).data = m :: (rest ++ 'e' :: sign :: eds) ∧
         m.isDigit = true ∧
         (rest = [] ∨ ∃ fr, rest = '.' :: fr ∧ fr ≠ [] ∧ fr.all Char.isDigit = true) ∧
         (sign = '+' ∨ sign = '-') ∧ eds ≠ [] ∧ eds.all Char.isDigit = true) := by
  unfold showDec
  split
  · left
    exact ⟨['0'], ['0'], rfl, by simp, by simp, by decide, by decide⟩
  · split
    · split
      · left
        exact ⟨natDigits d.num, ['0'], rfl, natDigits_ne_nil _, by simp,
          natDigits_all _, by decide⟩
      · left
        refine ⟨natDigits (d.num / 10 ^ d.exp),
          List.replicate (d.exp - (natDigits (d.num % 10 ^ d.exp)).length) '0' ++
            natDigits (d.num % 10 ^ d.exp), rfl, natDigits_ne_nil _, ?_, natDigits_all _, ?_⟩
        · simp [natDigits_ne_nil]
        · rw [List.all_append, natDigits_all]
          simp only [Bool.and_true]
          rw [List.all_eq_true]
          intro c hc
          rw [List.eq_of_mem_replicate hc]
          decide
    · split
      · rename_i heq
        exact absurd heq (natDigits_ne_nil _)
      · rename_i m t heq
        right
        have htall : t.all Char.isDigit = true := by
          have hall := natDigits_all d.num
          rw [heq, List.all_cons, Bool.and_eq_true] at hall
          exact hall.2
        have hm : m.isDigit = true := by
          have hall := natDigits_all d.num
          rw [heq, List.all_cons, Bool.and_eq_true] at hall
          exact hall.1
        obtain ⟨rest, sign, eds, he, hrest, hsign, hne, hall⟩ := sciChars_form d.exp m t htall
        exact ⟨m, rest, sign, eds, by exact he, hm, hrest, hsign, hne, hall⟩

theorem getLast?_digit_of_all (l : List Char) (h0 : l ≠ [])
    (hall : l.all Char.isDigit = true) :
    ∃ c, l.getLast? = some c ∧ c.isDigit = true :=
  ⟨l.getLast h0, List.getLast?_eq_getLast_of_ne_nil h0,
    List.all_eq_true.mp hall _ (List.getLast_mem h0)⟩

/-- A rendered float begins with a digit. -/
theorem showDec_head_digit (d : Dec) :
    ∃ c t, (showDec d).data = c :: t ∧ c.isDigit = true := by
  rcases showDec_form d with ⟨ds, fr, heq, hds0, _, hds, _⟩ |
    ⟨m, rest, sign, eds, heq, hm, _, _, _, _⟩
  · cases ds with
    | nil => exact absurd rfl hds0
    | cons c t =>
      rw [List.all_cons, Bool.and_eq_true] at hds
      exact ⟨c, t ++ '.' :: fr, by rw [heq]; rfl, hds.1⟩
  · exact ⟨m, rest ++ 'e' :: sign :: eds, heq, hm⟩

/-- A rendered float ends with a digit. -/
theorem showDec_last_digit (d : Dec) :
    ∃ c, (showDec d).data.getLast? = some c ∧ c.isDigit = true := by
  rcases showDec_form d with ⟨ds, fr, heq, _, hfr0, _, hfr⟩ |
    ⟨m, rest, sign, eds, heq, _, _, _, heds0, heds⟩
  · cases fr with
    | nil => exact absurd rfl hfr0
    | cons a fr' =>
      rw [heq, List.getLast?_append_cons, List.getLast?_cons_cons]
      exact getLast?_digit_of_all (a :: fr') (List.cons_ne_nil a fr') hfr
  · cases eds with
    | nil => exact absurd rfl heds0
    | cons a es =>
      rw [heq,
        show m :: (rest ++ 'e' :: sign :: a :: es) =
          (m :: rest ++ ['e', sign]) ++ a :: es from by simp,
        List.getLast?_append_cons]
      exact getLast?_digit_of_all (a :: es) (List.cons_ne_nil a es) heds

theorem digit_ne_hyph (c : Char) (h : c.isDigit = true) : ¬ c = '-' := by
  intro he
  subst he
  exact absurd h (by decide)

theorem noDigitHyph_of_no_hyph (l : List Char) (h : ∀ c ∈ l, ¬ c = '-') :
    ∀ prev, noDigitHyph prev l = true := by
  induction l with
  | nil => intro prev; rfl
  | cons c t ih =>
    intro prev
    have hc : (c = '-' : Bool) = false := by
      rw [decide_eq_false_iff_not]
      exact h c (List.mem_cons_self c t)
    unfold noDigitHyph
    rw [hc]
    simp only [Bool.false_and, Bool.not_false, Bool.true_and]
    exact ih (fun x hx => h x (List.mem_cons_of_mem c hx)) (some c)

theorem noDigitHyph_append (xs ys : List Char) (hxs : ∀ c ∈ xs, ¬ c = '-')
    (hys : ∀ prev, noDigitHyph prev ys = true) :
    ∀ prev, noDigitHyph prev (xs ++ ys) = true := by
  induction xs with
  | nil => intro prev; exact hys prev
  | cons c t ih =>
    intro prev
    have hc : (c = '-' : Bool) = false := by
      rw [decide_eq_false_iff_not]
      exact hxs c (List.mem_cons_self c t)
    rw [List.cons_append]
    unfold noDigitHyph
    rw [hc]
    simp only [Bool.false_and, Bool.not_false, Bool.true_and]
    exact ih (fun x hx => hxs x (List.mem_cons_of_mem c hx)) (some c)

/-- In a rendered float no hyphen follows a digit: the only hyphen it can
contain is an exponent sign, which follows `'e'`. -/
theorem showDec_noDigitHyph (d : Dec) :
    ∀ prev, noDigitHyph prev (showDec d).data = true := by
  rcases showDec_form d with ⟨ds, fr, heq, _, _, hds, hfr⟩ |
    ⟨m, rest, sign, eds, heq, hm, hrest, hsign, _, heall⟩
  · intro prev
    rw [heq]
    apply noDigitHyph_of_no_hyph
    intro c hc
    rcases List.mem_append.mp hc with h | h
    · exact digit_ne_hyph c (List.all_eq_true.mp hds c h)
    · rcases List.mem_cons.mp h with h | h
      · subst h; decide
      · exact digit_ne_hyph c (List.all_eq_true.mp hfr c h)
  · intro prev
    rw [heq, show m :: (rest ++ 'e' :: sign :: eds) =
      (m :: rest) ++ 'e' :: sign :: eds from rfl]
    apply noDigitHyph_append
    · intro c hc
      rcases List.mem_cons.mp hc with h | h
      · rw [h]; exact digit_ne_hyph m hm
      · rcases hrest with hnil | ⟨fr, hfr', hfr0, hfrall⟩
        · rw [hnil] at h; simp at h
        · rw [hfr'] at h
          rcases List.mem_cons.mp h with h | h
          · subst h; decide
          · exact digit_ne_hyph c (List.all_eq_true.mp hfrall c h)
    · intro prev'
      simp only [noDigitHyph]
      rw [show (decide ('e' = '-')) = false from by decide,
        show prevDigit (some 'e') = false from by decide]
      simp only [Bool.false_and, Bool.and_false, Bool.not_false, Bool.true_and]
      exact noDigitHyph_of_no_hyph eds
        (fun c hc => digit_ne_hyph c (List.all_eq_true.mp heall c hc)) (some sign)

/-- `splitDigitHyphGo` runs past a hyphen-after-digit-free prefix and stops
at the first hyphen that follows a digit. -/
theorem splitDigitHyphGo_append (B : List Char) :
    ∀ (A : List Char) (prev : Option Char) (acc : List Char),
      noDigitHyph prev A = true →
      (match A.getLast? with
       | some c => c.isDigit = true
       | none => prevDigit prev = true) →
      splitDigitHyphGo prev acc (A ++ '-' :: B) = some (acc.reverse ++ A, B) := by
  intro A
  induction A with
  | nil =>
    intro prev acc _ hlast
    show splitDigitHyphGo prev acc ('-' :: B) = some (acc.reverse ++ [], B)
    unfold splitDigitHyphGo
    rw [if_pos]
    · simp
    · rw [Bool.and_eq_true]
      exact ⟨by decide, hlast⟩
  | cons c t ih =>
    intro prev acc hnd hlast
    unfold noDigitHyph at hnd
    rw [Bool.and_eq_true] at hnd
    obtain ⟨h1, h2⟩ := hnd
    rw [Bool.not_eq_true'] at h1
    rw [List.cons_append]
    unfold splitDigitHyphGo
    rw [if_neg]
    · have hlast' : (match t.getLast? with
          | some x => x.isDigit = true
          | none => prevDigit (some c) = true) := by
        cases t with
        | nil => exact hlast
        | cons b t' =>
          rw [List.getLast?_cons_cons] at hlast
          exact hlast
      rw [ih (some c) (c :: acc) h2 hlast']
      simp
    · intro hcontra
      rw [h1] at hcontra
      exact absurd hcontra (by decide)

theorem isNumeralChars_of (ds fr : List Char) (hds0 : ds ≠ []) (hfr0 : fr ≠ [])
    (hds : ds.all Char.isDigit = true) (hfr : fr.all Char.isDigit = true) :
    isNumeralChars (ds ++ '.' :: fr) = true := by
  unfold isNumeralChars
  rw [takeWhile_append_of_all _ _ _ (fun c hc => List.all_eq_true.mp hds c hc),
      dropWhile_append_of_all _ _ _ (fun c hc => List.all_eq_true.mp hds c hc)]
  simp only [List.takeWhile_cons, List.dropWhile_cons, show ('.'.isDigit) = false from rfl]
  simp [hds0, hfr0, hfr]

theorem isSciNumeral_of (m : Char) (rest : List Char) (sign : Char) (eds : List Char)
    (hm : m.isDigit = true)
    (hrest : rest = [] ∨ ∃ fr, rest = '.' :: fr ∧ fr ≠ [] ∧ fr.all Char.isDigit = true)
    (hsign : sign = '+' ∨ sign = '-') (heds0 : eds ≠ [])
    (heds : eds.all Char.isDigit = true) :
    isSciNumeral (m :: (rest ++ 'e' :: sign :: eds)) = true := by
  show (m.isDigit && sciTailChars (rest ++ 'e' :: sign :: eds)) = true
  rw [hm]
  simp only [Bool.true_and]
  rcases hrest with hnil | ⟨fr, hfr', hfr0, hfrall⟩
  · subst hnil
    rw [List.nil_append]
    cases eds with
    | nil => exact absurd rfl heds0
    | cons a es =>
      rcases hsign with h | h <;> subst h <;> simp [sciTailChars, heds]
  · subst hfr'
    rw [List.cons_append]
    have h1 : (fr ++ 'e' :: sign :: eds).takeWhile Char.isDigit = fr := by
      rw [takeWhile_append_of_all _ _ _ (fun c hc => List.all_eq_true.mp hfrall c hc)]
      simp [List.takeWhile_cons, show ('e'.isDigit) = false from rfl]
    have h2 : (fr ++ 'e' :: sign :: eds).dropWhile Char.isDigit = 'e' :: sign :: eds := by
      rw [dropWhile_append_of_all _ _ _ (fun c hc => List.all_eq_true.mp hfrall c hc)]
      simp [List.dropWhile_cons, show ('e'.isDigit) = false from rfl]
    have hfrE : fr.isEmpty = false := by
      cases fr with
      | nil => exact absurd rfl hfr0
      | cons a t => rfl
    cases eds with
    | nil => exact absurd rfl heds0
    | cons a es =>
      rcases hsign with h | h <;> subst h <;>
        simp [sciTailChars, h1, h2, hfrE, heds]

/-- A rendered float is a Python numeral. -/
theorem isPyNumeral_showDec (d : Dec) : isPyNumeral (showDec d).data = true := by
  rcases showDec_form d with ⟨ds, fr, heq, hds0, hfr0, hds, hfr⟩ |
    ⟨m, rest, sign, eds, heq, hm, hrest, hsign, heds0, heds⟩
  · unfold isPyNumeral
    rw [heq, isNumeralChars_of ds fr hds0 hfr0 hds hfr]
    rfl
  · unfold isPyNumeral
    rw [heq, isSciNumeral_of m rest sign eds hm hrest hsign heds0 heds]
    simp

theorem renderClosed_data (l h : Dec) :
    (renderClosed l h).data = (showDec l).data ++ '-' :: (showDec h).data := by
  unfold renderClosed
  rw [String.data_append, String.data_append, List.append_assoc]
  rfl

theorem renderLE_data (n : Dec) : (renderLE n).data = '≤' :: ' ' :: (showDec n).data := by
  unfold renderLE
  rw [String.data_append]
  rfl

theorem renderGE_data (n : Dec) : (renderGE n).data = '≥' :: ' ' :: (showDec n).data := by
  unfold renderGE
  rw [String.data_append]
  rfl

/-- On a rendered closed range `splitDigitHyph` recovers the two bounds. -/
theorem splitDigitHyph_renderClosed (l h : Dec) :
    splitDigitHyph (renderClosed l h).data =
      some ((showDec l).data, (showDec h).data) := by
  rw [renderClosed_data]
  unfold splitDigitHyph
  have hlast : (match (showDec l).data.getLast? with
      | some c => c.isDigit = true
      | none => prevDigit none = true) := by
    obtain ⟨c, hc, hcd⟩ := showDec_last_digit l
    rw [hc]
    exact hcd
  rw [splitDigitHyphGo_append (showDec h).data (showDec l).data none []
    (showDec_noDigitHyph l none) hlast]
  simp

theorem isCanonicalRangeSci_closed (l h : Dec) :
    isCanonicalRangeSci (renderClosed l h) = true := by
  unfold isCanonicalRangeSci
  rw [splitDigitHyph_renderClosed]
  simp [isPyNumeral_showDec]

theorem isCanonicalRangeSci_le (n : Dec) : isCanonicalRangeSci (renderLE n) = true := by
  unfold isCanonicalRangeSci
  rw [renderLE_data]
  have h := isPyNumeral_showDec n
  simp [h]

theorem isCanonicalRangeSci_ge (n : Dec) : isCanonicalRangeSci (renderGE n) = true := by
  unfold isCanonicalRangeSci
  rw [renderGE_data]
  have h := isPyNumeral_showDec n
  simp [h]

/-- A threshold range string starts with `'≤'`, not a digit. -/
theorem headIsDigit_renderLE (n : Dec) : headIsDigit (renderLE n) = false := by
  unfold headIsDigit
  rw [renderLE_data]
  rfl

/-- A threshold range string starts with `'≥'`, not a digit. -/
theorem headIsDigit_renderGE (n : Dec) : headIsDigit (renderGE n) = false := by
  unfold headIsDigit
  rw [renderGE_data]
  rfl

/-! ## Lemmas about the flag classifier -/

theorem isLtComp_cases (c : String) (h : isLtComp c = true) :
    c = "<" ∨ c = "<=" ∨ c = "≤" := by
  simp only [isLtComp, Bool.or_eq_true, decide_eq_true_eq] at h
  tauto

theorem isGtComp_cases (c : String) (h : isGtComp c = true) :
    c = ">" ∨ c = ">=" ∨ c = "≥" := by
  simp only [isGtComp, Bool.or_eq_true, decide_eq_true_eq] at h
  tauto

theorem posNegFlag_ne_high (s : String) : posNegFlag s ≠ some "high" := by
  simp only [posNegFlag]
  split
  · simp
  · split
    · simp
    · simp

/-- For a `<`-family comparator, `flagComp` can only say low/normal/none. -/
theorem flagComp_lt_ne_high (comp : String) (v : Dec) (rt : Option (Dec × Dec))
    (le ge : Option Dec) (hlt : isLtComp comp = true) :
    flagComp comp v rt le ge ≠ some "high" := by
  rcases isLtComp_cases comp hlt with h | h | h <;> subst h <;>
  · cases rt with
    | some lh =>
      show (if decLT v lh.1 then some "low"
            else if decLE v lh.2 then some "normal" else none) ≠ some "high"
      split
      · simp
      · split
        · simp
        · simp
    | none =>
      cases le with
      | some l =>
        show (if decLE v l then some "normal" else none) ≠ some "high"
        split
        · simp
        · simp
      | none =>
        cases ge with
        | some g =>
          show (if decLT v g then some "low" else none) ≠ some "high"
          split
          · simp
          · simp
        | none => simp [flagComp]

/-- C2, the comparator-value branches of `_compute_flag`:
against a closed range, `<N`-style values give low / normal / null exactly as
`N < low` / `N ≤ high` / otherwise, `>N`-style values give high only when
`N > high`; a `<`-family value is never flagged high; against single
thresholds, the matching conservative rules apply. -/
theorem C2_comparator_conservative (s comp vstr : String)
    (hm : compValMatch (pyStrip s) = some (comp, vstr)) :
    (∀ v low high le ge, toFloat vstr = some v → isLtComp comp = true →
       computeFlag (.str s) (some (low, high)) le ge =
         (if decLT v low then some "low"
          else if decLE v high then some "normal" else none))
  ∧ (∀ v low high le ge, toFloat vstr = some v → isGtComp comp = true →
       computeFlag (.str s) (some (low, high)) le ge =
         (if decLT high v then some "high" else none))
  ∧ (∀ rt le ge, isLtComp comp = true →
       computeFlag (.str s) rt le ge ≠ some "high")
  ∧ (∀ v l ge, toFloat vstr = some v → isLtComp comp = true →
       computeFlag (.str s) none (some l) ge =
         (if decLE v l then some "normal" else none))
  ∧ (∀ v l ge, toFloat vstr = some v → isGtComp comp = true →
       computeFlag (.str s) none (some l) ge =
         (if decLT l v then some "high" else none))
  ∧ (∀ v g, toFloat vstr = some v → isGtComp comp = true →
       computeFlag (.str s) none none (some g) =
         (if decLE g v then some "normal" else none))
  ∧ (∀ v g, toFloat vstr = some v → isLtComp comp = true →
       computeFlag (.str s) none none (some g) =
         (if decLT v g then some "low" else none)) := by
  refine ⟨?_, ?_, ?_, ?_, ?_, ?_, ?_⟩
  · intro v low high le ge hv hlt
    rcases isLtComp_cases comp hlt with h | h | h <;> subst h <;>
      simp only [computeFlag, hm, hv, flagComp] <;> rfl
  · intro v low high le ge hv hgt
    rcases isGtComp_cases comp hgt with h | h | h <;> subst h <;>
      simp only [computeFlag, hm, hv, flagComp] <;> rfl
  · intro rt le ge hlt
    simp only [computeFlag, hm]
    cases htf : toFloat vstr with
    | some v => exact flagComp_lt_ne_high comp v rt le ge hlt
    | none => exact posNegFlag_ne_high s
  · intro v l ge hv hlt
    rcases isLtComp_cases comp hlt with h | h | h <;> subst h <;>
      simp only [computeFlag, hm, hv, flagComp] <;> rfl
  · intro v l ge hv hgt
    rcases isGtComp_cases comp hgt with h | h | h <;> subst h <;>
      simp only [computeFlag, hm, hv, flagComp] <;> rfl
  · intro v g hv hgt
    rcases isGtComp_cases comp hgt with h | h | h <;> subst h <;>
      simp only [computeFlag, hm, hv, flagComp] <;> rfl
  · intro v g hv hlt
    rcases isLtComp_cases comp hlt with h | h | h <;> subst h <;>
      simp only [computeFlag, hm, hv, flagComp] <;> rfl

/-- Witness for C2 at `"<5"` against the closed range `[10, 20]` and, for the
never-high part, `[0, 10]`. -/
theorem C2_comparator_conservative_witness :
    computeFlag (.str "<5") (some (⟨10, 0⟩, ⟨20, 0⟩)) none none =
      (if decLT ⟨5, 0⟩ ⟨10, 0⟩ then some "low"
       else if decLE ⟨5, 0⟩ ⟨20, 0⟩ then some "normal" else none)
  ∧ computeFlag (.str "<5") (some (⟨0, 0⟩, ⟨10, 0⟩)) none none ≠ some "high" := by
  have h := C2_comparator_conservative "<5" "<" "5" (by rfl)
  exact ⟨h.1 ⟨5, 0⟩ ⟨10, 0⟩ ⟨20, 0⟩ none none (by rfl) (by rfl),
    h.2.2.1 (some (⟨0, 0⟩, ⟨10, 0⟩)) none none (by rfl)⟩

/-! ## C8: numeric-token normalization -/

/-- C8: `_normalize_number_str` — with both `,` and `.`, commas are stripped;
with only commas in thousands-grouping shape, commas are stripped; a lone
comma (no dot, not thousands shape) becomes a decimal point. -/
theorem C8_number_normalization (s : String) :
    ((pyStrip s).data.contains ',' = true → (pyStrip s).data.contains '.' = true →
       normalizeNumberStr s = remCommas (pyStrip s))
  ∧ ((pyStrip s).data.contains ',' = true → (pyStrip s).data.contains '.' = false →
       (reMatchAt THOUSANDS (pyStrip s).data).isSome = true →
       normalizeNumberStr s = remCommas (pyStrip s))
  ∧ ((pyStrip s).data.contains ',' = true → (pyStrip s).data.contains '.' = false →
       (reMatchAt THOUSANDS (pyStrip s).data).isSome = false →
       (pyStrip s).data.count ',' = 1 →
       normalizeNumberStr s = commasToDots (pyStrip s)) := by
  refine ⟨?_, ?_, ?_⟩
  · intro hc hd
    simp only [normalizeNumberStr]
    rw [if_pos ⟨hc, hd⟩]
  · intro hc hd ht
    have hnd : ¬ ((pyStrip s).data.contains '.' = true) :=
      fun hx => Bool.false_ne_true (hd ▸ hx)
    simp only [normalizeNumberStr]
    rw [if_neg (fun hx => hnd hx.2), if_pos ⟨hc, hnd⟩, if_pos ht]
  · intro hc hd ht _
    have hnd : ¬ ((pyStrip s).data.contains '.' = true) :=
      fun hx => Bool.false_ne_true (hd ▸ hx)
    have hns : ¬ ((reMatchAt THOUSANDS (pyStrip s).data).isSome = true) :=
      fun hx => Bool.false_ne_true (ht ▸ hx)
    simp only [normalizeNumberStr]
    rw [if_neg (fun hx => hnd hx.2), if_pos ⟨hc, hnd⟩, if_neg hns]

/-- Witness for C8 at `"5,4"` (decimal-comma case). -/
theorem C8_number_normalization_witness :
    normalizeNumberStr "5,4" = commasToDots (pyStrip "5,4") :=
  (C8_number_normalization "5,4").2.2 (by rfl) (by rfl) (by rfl) (by rfl)

/-! ## Concrete end-to-end scenarios -/

/-- C3 (counterexample): on `"CRP <5 mg/L (0-10)"` the emitted row's flag is
NOT left null, contradicting the claim. -/
theorem C3_crp_scenario_cex :
    (match parseText "CRP <5 mg/L (0-10)" with
     | .ok (rows, _) => rows.map (fun r => r.flag)
     | .error _ => []) ≠ [none] := by
  intro h
  simp only [show parseText "CRP <5 mg/L (0-10)" =
    .ok ([{ test_name := "CRP", value := .str "<5", unit := some "mg/L",
            reference_range := some "0.0-10.0", flag := some "normal",
            confidence := 100, test_name_raw := some "CRP <",
            unit_raw := some "mg/L", comparator := some "<",
            value_text := some "<5", value_num := none,
            raw_line := some "CRP <5 mg/L (0-10)" }], []) from rfl] at h
  simp at h

/-- C3 (amended): `"CRP <5 mg/L (0-10)"` yields one row with the string value
`"<5"`, comparator `"<"`, and flag `"normal"` (the classifier treats a
`<`-bounded value not exceeding the upper bound as normal). -/
theorem C3_crp_scenario :
    (match parseText "CRP <5 mg/L (0-10)" with
     | .ok (rows, _) => rows.map (fun r => (r.test_name, r.value, r.comparator, r.flag))
     | .error _ => []) =
    [("CRP", .str "<5", some "<", some "normal")] := by rfl

/-- C6: a pure page-number line and a pure MRN metadata line are dropped
entirely: they reach neither `rows` nor `unparsed`. -/
theorem C6_noise_rejection :
    parseText "Page 3" = .ok ([], []) ∧ parseText "MRN: 123456789" = .ok ([], []) :=
  ⟨by rfl, by rfl⟩

/-- C7: the value of `"Vitamin B12 600 pg/mL 200-900"` is 600, never the
digits inside `B12`, and the name keeps `Vitamin B12`. -/
theorem C7_word_boundary :
    (match parseText "Vitamin B12 600 pg/mL 200-900" with
     | .ok (rows, _) => rows.map (fun r => (r.test_name, r.value))
     | .error _ => []) =
    [("Vitamin B12", .num ⟨600, 0⟩)] := by rfl

/-- C9 (code bug): `parse_text` CAN raise.  The range `1,234,56-7` matches
`RANGE_X_Y`, `_extract_range` calls `_to_float("1,234,56")` outside any
`try`, normalization yields `"1.234.56"`, and `float` raises `ValueError`. -/
theorem C9_no_exception_bug : parseText "x 1,234,56-7" = .error () := by rfl

/-! ## The range extractor only produces the canonical shapes -/

theorem closedR_ok (lo hi : String) (ri : RangeInfo) (h : closedR lo hi = .ok ri) :
    ∃ l hg, ri = ⟨some (renderClosed l hg), some (l, hg), none, none⟩ := by
  unfold closedR at h
  split at h
  · cases h
  · split at h
    · cases h
    · injection h with h'
      exact ⟨_, _, h'.symm⟩

theorem leR_ok (s : String) (ri : RangeInfo) (h : leR s = .ok ri) :
    ∃ n, ri = ⟨some (renderLE n), none, some n, none⟩ := by
  unfold leR at h
  split at h
  · cases h
  · injection h with h'
    exact ⟨_, h'.symm⟩

theorem geR_ok (s : String) (ri : RangeInfo) (h : geR s = .ok ri) :
    ∃ n, ri = ⟨some (renderGE n), none, none, some n⟩ := by
  unfold geR at h
  split at h
  · cases h
  · injection h with h'
    exact ⟨_, h'.symm⟩

theorem extractRange_cases (seg : String) (ri : RangeInfo)
    (h : extractRange seg = .ok ri) : RangeCases ri := by
  unfold extractRange at h
  unfold RangeCases
  repeat' split at h
  all_goals first
    | (exact Or.inr (Or.inl (closedR_ok _ _ _ h)))
    | (exact Or.inr (Or.inr (Or.inl (leR_ok _ _ h))))
    | (exact Or.inr (Or.inr (Or.inr (geR_ok _ _ h))))
    | (injection h with h'; exact Or.inl h'.symm)

/-! ## Row invariants are preserved by every step of `parse_text` -/

theorem numFlag_isSome (v l h : Dec) : ∃ f, numFlag v l h = some f := by
  unfold numFlag
  split
  · exact ⟨_, rfl⟩
  · split
    · exact ⟨_, rfl⟩
    · exact ⟨_, rfl⟩

theorem computeFlag_num_closed (v l h : Dec) (le ge : Option Dec) :
    computeFlag (.num v) (some (l, h)) le ge = numFlag v l h := rfl

/-- For a row whose value is numeric, `extractNV` must have gone through the
value/unit branch: no qualitative match, and its `vm` is the search result. -/
theorem extractNV_num (line : String) (v : Dec)
    (h : (extractNV line).value = some (.num v)) :
    posNegFind line = none ∧ (extractNV line).vm = valueUnitSearch line := by
  cases hpn : posNegFind line with
  | some p =>
    have h' : some (Value.str (pyCapitalize p)) = some (Value.num v) := by
      rw [← h]
      unfold extractNV
      rw [hpn]
    injection h' with h2
    cases h2
  | none =>
    cases hvu : valueUnitSearch line with
    | some vm =>
      refine ⟨rfl, ?_⟩
      unfold extractNV
      rw [hpn, hvu]
    | none =>
      have h' : (none : Option Value) = some (Value.num v) := by
        rw [← h]
        unfold extractNV
        rw [hpn, hvu]
      cases h'

theorem RowInv_mkRow (line : String) (ri : RangeInfo) (name0 n : String) (v : Value)
    (hn : n ≠ "") (hri : RangeCases ri)
    (hval : (extractNV line).value = some v) :
    RowInv (mkRow line ri (extractNV line) name0 n v) := by
  refine ⟨by simp [mkRow, hn], ?_, ?_⟩
  · intro s hs
    have hs' : ri.str = some s := by simpa [mkRow] using hs
    rcases hri with h0 | ⟨l, hg, hc⟩ | ⟨m, hc⟩ | ⟨m, hc⟩
    · rw [h0] at hs'; cases hs'
    · rw [hc] at hs'
      injection hs' with h'
      rw [← h']
      exact isCanonicalRangeSci_closed l hg
    · rw [hc] at hs'
      injection hs' with h'
      rw [← h']
      exact isCanonicalRangeSci_le m
    · rw [hc] at hs'
      injection hs' with h'
      rw [← h']
      exact isCanonicalRangeSci_ge m
  · intro v0 s hv0 hs hh
    have hveq : v = .num v0 := by simpa [mkRow] using hv0
    have hs' : ri.str = some s := by simpa [mkRow] using hs
    rcases hri with h0 | ⟨l, hg, hc⟩ | ⟨m, hc⟩ | ⟨m, hc⟩
    · rw [h0] at hs'; cases hs'
    · rw [hc] at hs'
      injection hs' with h'
      subst h'
      refine ⟨l, hg, rfl, ?_⟩
      subst hveq
      obtain ⟨hpn, hvm⟩ := extractNV_num line v0 hval
      rw [hc]
      cases hvmc : (extractNV line).vm with
      | some vm =>
        have hvuc : valueUnitSearch line = some vm := by rw [← hvm, hvmc]
        have hexp : explicitFlagOfLine line =
            (if dropStr line vm.endPos = "" then none
             else endFlagOf (dropStr line vm.endPos)) := by
          unfold explicitFlagOfLine
          rw [hpn, hvuc]
        by_cases htl : dropStr line vm.endPos = ""
        · right
          simp [mkRow, hvmc, htl, computeFlag_num_closed, numFlag]
        · cases hef : endFlagOf (dropStr line vm.endPos) with
          | some f =>
            left
            refine ⟨line, by simp [mkRow], ?_, ?_⟩
            · rw [hexp, if_neg htl, hef]; simp
            · rw [hexp, if_neg htl, hef]
              simp [mkRow, hvmc, htl, hef]
          | none =>
            right
            simp [mkRow, hvmc, htl, hef, computeFlag_num_closed, numFlag]
      | none =>
        have hvuc : valueUnitSearch line = none := by rw [← hvm, hvmc]
        right
        simp [mkRow, hvmc, computeFlag_num_closed, numFlag]
    · rw [hc] at hs'
      injection hs' with h'
      rw [← h', headIsDigit_renderLE m] at hh
      exact absurd hh (by decide)
    · rw [hc] at hs'
      injection hs' with h'
      rw [← h', headIsDigit_renderGE m] at hh
      exact absurd hh (by decide)

/-- Range attachment to the last row keeps that row's invariant. -/
theorem RowInv_attachRange (last : ParsedRow) (rstr : String) (ri : RangeInfo)
    (hri : RangeCases ri) (hstr : ri.str = some rstr) (hname : last.test_name ≠ "") :
    RowInv (attachRange last rstr ri) := by
  refine ⟨by simp [attachRange, hname], ?_, ?_⟩
  · intro s hs
    have hseq : rstr = s := by simpa [attachRange] using hs
    subst hseq
    rcases hri with h0 | ⟨l, hg, hc⟩ | ⟨m, hc⟩ | ⟨m, hc⟩
    · rw [h0] at hstr; cases hstr
    · rw [hc] at hstr
      injection hstr with h'
      rw [← h']
      exact isCanonicalRangeSci_closed l hg
    · rw [hc] at hstr
      injection hstr with h'
      rw [← h']
      exact isCanonicalRangeSci_le m
    · rw [hc] at hstr
      injection hstr with h'
      rw [← h']
      exact isCanonicalRangeSci_ge m
  · intro v0 s hv0 hs hh
    have hveq : last.value = .num v0 := by simpa [attachRange] using hv0
    have hseq : rstr = s := by simpa [attachRange] using hs
    subst hseq
    rcases hri with h0 | ⟨l, hg, hc⟩ | ⟨m, hc⟩ | ⟨m, hc⟩
    · rw [h0] at hstr; cases hstr
    · rw [hc] at hstr
      injection hstr with h'
      subst h'
      refine ⟨l, hg, rfl, Or.inr ?_⟩
      rw [hc]
      obtain ⟨f, hf⟩ := numFlag_isSome v0 l hg
      simp [attachRange, hveq, computeFlag_num_closed, hf]
    · rw [hc] at hstr
      injection hstr with h'
      rw [← h', headIsDigit_renderLE m] at hh
      exact absurd hh (by decide)
    · rw [hc] at hstr
      injection hstr with h'
      rw [← h', headIsDigit_renderGE m] at hh
      exact absurd hh (by decide)

theorem getLast?_mem_self {l : List ParsedRow} {a : ParsedRow}
    (h : l.getLast? = some a) : a ∈ l := by
  have hd := List.dropLast_append_getLast? a (by rw [h]; rfl)
  rw [← hd]
  exact List.mem_append.mpr (Or.inr (List.mem_singleton.mpr rfl))

/-- Orphan-range attachment keeps every row's invariant. -/
theorem StInv_orphanAttach (st : St) (line : String) (ri : RangeInfo)
    (hri : RangeCases ri) (hinv : StInv st) : StInv (orphanAttach st line ri) := by
  unfold orphanAttach
  split
  · rename_i rstr hstr
    split
    · rename_i last hlast
      split
      · rename_i hnone
        intro r hr
        simp only [St.rows] at hr
        rcases List.mem_append.mp hr with hmem | hmem
        · exact hinv r (List.mem_of_mem_dropLast hmem)
        · have hr' : r = attachRange last rstr ri := List.mem_singleton.mp hmem
          subst hr'
          obtain ⟨hname, _, _⟩ := hinv last (getLast?_mem_self hlast)
          exact RowInv_attachRange last rstr ri hri hstr hname
      · exact hinv
    · exact hinv
  · exact hinv

/-- One cell's core processing keeps the state invariant. -/
theorem StInv_processCore (st : St) (line : String) (ri : RangeInfo)
    (hri : RangeCases ri) (hinv : StInv st) : StInv (processCore st line ri) := by
  unfold processCore
  split
  · exact hinv
  · split
    · exact StInv_orphanAttach st line ri hri hinv
    · rename_i name0 hname0
      unfold emitOrUnparsed
      split
      · rename_i n v hc1 hc2
        split
        · rename_i hn
          intro r hr
          simp only [St.rows] at hr
          rcases List.mem_append.mp hr with hmem | hmem
          · exact hinv r hmem
          · have hr' : r = mkRow line ri (extractNV line) name0 n v :=
              List.mem_singleton.mp hmem
            subst hr'
            exact RowInv_mkRow line ri name0 n v hn hri hc2
        · exact hinv
      · exact hinv

/-- One loop iteration of `parse_text` keeps the state invariant. -/
theorem StInv_processCellLine (st : St) (line : String) (st' : St)
    (h : processCellLine st line = .ok st') (hinv : StInv st) : StInv st' := by
  unfold processCellLine at h
  split at h
  · injection h with h'; subst h'; exact hinv
  · split at h
    · injection h with h'; subst h'; exact hinv
    · split at h
      · injection h with h'; subst h'; exact hinv
      · split at h
        · injection h with h'; subst h'; exact hinv
        · split at h
          · injection h with h'
            subst h'
            split
            · exact hinv
            · exact hinv
          · split at h
            · cases h
            · rename_i ri hre
              injection h with h'
              subst h'
              exact StInv_processCore _ _ ri (extractRange_cases _ ri hre) hinv

theorem StInv_processCell (st : St) (seg : String) (st' : St)
    (h : processCell st seg = .ok st') (hinv : StInv st) : StInv st' :=
  StInv_processCellLine st (cleanLine seg) st' h hinv

/-- Folding the cell stream keeps the state invariant. -/
theorem StInv_foldlM :
    ∀ (cs : List String) (st st' : St),
      List.foldlM processCell st cs = .ok st' → StInv st → StInv st' := by
  intro cs
  induction cs with
  | nil =>
    intro st st' h hinv
    simp only [List.foldlM] at h
    injection h with h'
    subst h'
    exact hinv
  | cons c t ih =>
    intro st st' h hinv
    simp only [List.foldlM] at h
    cases hm : processCell st c with
    | error e => rw [hm] at h; cases h
    | ok st1 =>
      rw [hm] at h
      exact ih st1 st' h (StInv_processCell st c st1 hm hinv)

/-- Every row a successful `parse_text` returns satisfies `RowInv`. -/
theorem parseText_rowInv (text : String) (rows : List ParsedRow) (unp : List String)
    (hp : parseText text = .ok (rows, unp)) : ∀ r ∈ rows, RowInv r := by
  unfold parseText at hp
  cases hf : List.foldlM processCell ⟨none, [], []⟩ (cells text) with
  | error e => rw [hf] at hp; cases hp
  | ok st =>
    rw [hf] at hp
    injection hp with hp'
    injection hp' with h1 h2
    have hstinv : StInv st := StInv_foldlM (cells text) ⟨none, [], []⟩ st hf (by
      intro r hr
      cases hr)
    intro r hr
    exact hstinv r (by rw [h1]; exact hr)

/-! ## Order facts about decimals -/

theorem decLT_iff (a b : Dec) : decLT a b = true ↔ toRat a < toRat b := by
  unfold decLT toRat
  rw [decide_eq_true_eq, div_lt_div_iff (by positivity) (by positivity)]
  constructor
  · intro h
    exact_mod_cast h
  · intro h
    exact_mod_cast h

theorem decLE_iff (a b : Dec) : decLE a b = true ↔ toRat a ≤ toRat b := by
  unfold decLE toRat
  rw [decide_eq_true_eq, div_le_div_iff (by positivity) (by positivity)]
  constructor
  · intro h
    exact_mod_cast h
  · intro h
    exact_mod_cast h

theorem decLT_false_of (l h v : Dec) (hle : decLE l h = true) (hlt : decLT h v = true) :
    decLT v l = false := by
  rw [decLE_iff] at hle
  rw [decLT_iff] at hlt
  cases hx : decLT v l with
  | false => rfl
  | true =>
    exfalso
    rw [decLT_iff] at hx
    linarith

/-! ## C1, C4, C5: row-level claims over all inputs -/

/-- C1 (amended): for every emitted row with a plain numeric value and a
closed reference range `low-high` (the digit-initial shape — the two
threshold shapes start with `≤`/`≥`) with `low ≤ high`, UNLESS an
explicit trailing flag marker (H/L/↑/↓) on the row's line overrode the
classifier, the flag is low iff `v < low`, high iff `v > high`, else
normal. -/
theorem C1_flag_soundness (text : String) (rows : List ParsedRow) (unp : List String)
    (row : ParsedRow) (v : Dec) (s : String)
    (hp : parseText text = .ok (rows, unp)) (hr : row ∈ rows)
    (hv : row.value = .num v) (hs : row.reference_range = some s)
    (hh : headIsDigit s = true)
    (hex : ∀ ln, row.raw_line = some ln → explicitFlagOfLine ln = none) :
    ∃ l h, s = renderClosed l h ∧
      (decLE l h = true →
        (row.flag = some "low" ↔ decLT v l = true)
        ∧ (row.flag = some "high" ↔ decLT h v = true)
        ∧ (decLT v l = false → decLT h v = false → row.flag = some "normal")) := by
  obtain ⟨-, -, hflag⟩ := parseText_rowInv text rows unp hp row hr
  obtain ⟨l, h, hs', hcase⟩ := hflag v s hv hs hh
  refine ⟨l, h, hs', ?_⟩
  intro hle
  rcases hcase with ⟨ln, hln, hne, -⟩ | hnf
  · exact absurd (hex ln hln) hne
  · rw [hnf]
    unfold numFlag
    refine ⟨?_, ?_, ?_⟩
    · by_cases h1 : decLT v l = true
      · rw [if_pos h1]
        simp [h1]
      · rw [if_neg h1]
        constructor
        · intro hx
          split at hx <;> first
            | exact absurd hx (by decide)
            | assumption
        · intro hx
          exact absurd hx h1
    · by_cases h2 : decLT h v = true
      · have h1 : decLT v l = false := decLT_false_of l h v hle h2
        rw [if_neg (by rw [h1]; exact Bool.false_ne_true), if_pos h2]
        simp [h2]
      · constructor
        · intro hx
          split at hx <;> first
            | exact absurd hx (by decide)
            | assumption
        · intro hx
          exact absurd hx h2
    · intro h1 h2
      rw [if_neg (by rw [h1]; exact Bool.false_ne_true),
          if_neg (by rw [h2]; exact Bool.false_ne_true)]

/-- C4: every emitted row has a non-empty test name (its value field is
total by construction); and a cell whose extraction lacks a name or a
value never emits a row — the rows list cannot grow on such a cell, which
is dropped or recorded as unparsed. -/
theorem C4_row_name_value (text : String) (rows : List ParsedRow) (unp : List String)
    (hp : parseText text = .ok (rows, unp)) :
    (∀ row ∈ rows, row.test_name ≠ "")
  ∧ (∀ (st : St) (line : String) (ri : RangeInfo),
      ((extractNV line).name0 = none ∨ (extractNV line).name0 = some "" ∨
        (extractNV line).value = none) →
      (processCore st line ri).rows.length = st.rows.length
      ∧ ((processCore st line ri).unparsed = st.unparsed
         ∨ ∃ u, (processCore st line ri).unparsed = st.unparsed ++ [u])) := by
  constructor
  · intro row hr
    exact (parseText_rowInv text rows unp hp row hr).1
  · intro st line ri hmiss
    unfold processCore
    split
    · exact ⟨rfl, Or.inl rfl⟩
    · rename_i hmeta
      split
      · rename_i hn0
        -- the orphan branch: no name was derivable
        unfold orphanAttach
        split
        · rename_i rstr hstr
          split
          · rename_i last hlast
            split
            · constructor
              · simp only [St.rows, List.length_append, List.length_dropLast,
                  List.length_singleton]
                have hne : st.rows ≠ [] := by
                  intro he
                  rw [he] at hlast
                  cases hlast
                have : 1 ≤ st.rows.length := by
                  cases hrw : st.rows with
                  | nil => exact absurd hrw hne
                  | cons a t => simp
                omega
              · exact Or.inl rfl
            · exact ⟨rfl, Or.inr ⟨line, rfl⟩⟩
          · exact ⟨rfl, Or.inr ⟨line, rfl⟩⟩
        · exact ⟨rfl, Or.inr ⟨line, rfl⟩⟩
      · rename_i name0 hn0
        rcases hmiss with hm | hm | hm
        · rw [hn0] at hm
          cases hm
        · rw [hn0] at hm
          injection hm with hm'
          subst hm'
          unfold emitOrUnparsed
          split
          · rename_i n v hc1 hc2
            rw [show canonicalizeName "" = none from rfl] at hc1
            cases hc1
          · exact ⟨rfl, Or.inr ⟨line, rfl⟩⟩
        · unfold emitOrUnparsed
          split
          · rename_i n v hc1 hc2
            rw [hm] at hc2
            cases hc2
          · exact ⟨rfl, Or.inr ⟨line, rfl⟩⟩

/-- C5 (amended): every non-null reference range string a parse returns has
one of the three canonical shapes `low-high`, `≤ N`, `≥ N`, where each bound
is rendered the way Python renders the float — a positional numeral, or a
scientific-notation numeral for magnitudes outside `[1e-4, 1e16)`. -/
theorem C5_range_canonical (text : String) (rows : List ParsedRow) (unp : List String)
    (row : ParsedRow) (s : String)
    (hp : parseText text = .ok (rows, unp)) (hr : row ∈ rows)
    (hs : row.reference_range = some s) : isCanonicalRangeSci s = true :=
  (parseText_rowInv text rows unp hp row hr).2.1 s hs

/-! ## C10: orphan-range attachment frame conditions -/

/-- C10: one parse step either leaves the rows alone, appends exactly one
new row, or modifies exactly the last row by attaching an orphan range to
it — and that only when its range was null, leaving `unparsed` untouched;
when the last row already had a range, the cell goes to `unparsed` and no
row changes; the attachment itself only sets the range, replaces the flag
by the recomputed one when that is non-null, and refreshes the
confidence. -/
theorem C10_orphan_attachment :
    (∀ (st : St) (seg : String) (st' : St), processCell st seg = .ok st' →
       st'.rows = st.rows
       ∨ (∃ r, st'.rows = st.rows ++ [r])
       ∨ (∃ last rstr ri, RangeCases ri ∧ ri.str = some rstr
            ∧ st.rows.getLast? = some last ∧ last.reference_range = none
            ∧ st'.rows = st.rows.dropLast ++ [attachRange last rstr ri]
            ∧ st'.unparsed = st.unparsed))
  ∧ (∀ (st : St) (line : String) (ri : RangeInfo) (last : ParsedRow) (rstr : String),
       st.rows.getLast? = some last → last.reference_range ≠ none →
       ri.str = some rstr →
       orphanAttach st line ri = { st with unparsed := st.unparsed ++ [line] })
  ∧ (∀ (last : ParsedRow) (rstr : String) (ri : RangeInfo),
       (attachRange last rstr ri).test_name = last.test_name
       ∧ (attachRange last rstr ri).value = last.value
       ∧ (attachRange last rstr ri).unit = last.unit
       ∧ (attachRange last rstr ri).raw_line = last.raw_line
       ∧ (attachRange last rstr ri).reference_range = some rstr
       ∧ (attachRange last rstr ri).flag =
           (match computeFlag last.value ri.tuple ri.le ri.ge with
            | some f => some f
            | none => last.flag)
       ∧ (attachRange last rstr ri).confidence = confidence (attachRange last rstr ri)) := by
  refine ⟨?_, ?_, ?_⟩
  · intro st seg st' h
    unfold processCell processCellLine at h
    split at h
    · injection h with h'; subst h'; exact Or.inl rfl
    · split at h
      · injection h with h'; subst h'; exact Or.inl rfl
      · split at h
        · injection h with h'; subst h'; exact Or.inl rfl
        · split at h
          · injection h with h'; subst h'; exact Or.inl rfl
          · split at h
            · injection h with h'
              subst h'
              split
              · exact Or.inl rfl
              · exact Or.inl rfl
            · split at h
              · cases h
              · rename_i ri hre
                injection h with h'
                subst h'
                have hri := extractRange_cases _ ri hre
                unfold processCore
                split
                · exact Or.inl rfl
                · split
                  · unfold orphanAttach
                    split
                    · rename_i rstr hstr
                      split
                      · rename_i last hlast
                        split
                        · rename_i hnone
                          exact Or.inr (Or.inr
                            ⟨last, rstr, ri, hri, hstr, hlast, hnone, rfl, rfl⟩)
                        · exact Or.inl rfl
                      · exact Or.inl rfl
                    · exact Or.inl rfl
                  · unfold emitOrUnparsed
                    split
                    · split
                      · exact Or.inr (Or.inl ⟨_, rfl⟩)
                      · exact Or.inl rfl
                    · exact Or.inl rfl
  · intro st line ri last rstr h1 h2 h3
    unfold orphanAttach
    split
    · rename_i rstr' hstr'
      split
      · rename_i last' hlast'
        rw [h1] at hlast'
        injection hlast' with he
        subst he
        rw [if_neg h2]
      · rename_i hlast'
        rw [h1] at hlast'
    · rename_i hstr'
      rw [h3] at hstr'
  · intro last rstr ri
    exact ⟨rfl, rfl, rfl, rfl, rfl, rfl, rfl⟩

/-! ## Counterexample and witnesses for the universally quantified claims -/

/-- C1 (counterexample): on `"Hemoglobin 13.0 g/dL 12.0-15.5 H"` the row has
the closed numeric range `12.0-15.5`, the plain numeric value `13.0`, yet
flag `"high"` although `13.0 > 15.5` is false — the trailing `H` marker
overrode the classifier, contradicting the unconditional claim. -/
theorem C1_flag_soundness_cex :
    (match parseText "Hemoglobin 13.0 g/dL 12.0-15.5 H" with
     | .ok (rows, _) => rows.map (fun r => (r.value, r.reference_range, r.flag))
     | .error _ => []) =
      [(.num ⟨13, 0⟩, some (renderClosed ⟨12, 0⟩ ⟨155, 1⟩), some "high")]
    ∧ decLT ⟨155, 1⟩ ⟨13, 0⟩ = false :=
  ⟨by rfl, by rfl⟩

/-- Witness for C1 on `"A 5 (1-9)"`. -/
theorem C1_flag_soundness_witness :
    ∃ l h, "1.0-9.0" = renderClosed l h ∧
      (decLE l h = true →
        (wrowA.flag = some "low" ↔ decLT ⟨5, 0⟩ l = true)
        ∧ (wrowA.flag = some "high" ↔ decLT h ⟨5, 0⟩ = true)
        ∧ (decLT ⟨5, 0⟩ l = false → decLT h ⟨5, 0⟩ = false →
            wrowA.flag = some "normal")) :=
  C1_flag_soundness "A 5 (1-9)" [wrowA] [] wrowA ⟨5, 0⟩ "1.0-9.0" (by rfl)
    (List.mem_singleton.mpr rfl) rfl rfl (by decide)
    (fun ln hln => by
      injection hln with he
      rw [← he]
      rfl)

/-- Witness for C4 on `"Ferritin 15 ng/mL (13-150)"`. -/
theorem C4_row_name_value_witness : wrowF.test_name ≠ "" :=
  (C4_row_name_value "Ferritin 15 ng/mL (13-150)" [wrowF] [] (by rfl)).1 wrowF
    (List.mem_singleton.mpr rfl)

/-- C5 (counterexample): on `"x 5 0.00001-1"` the parser renders the lower
bound the way Python writes the float — `1e-05`, scientific notation for
magnitudes below `1e-4` — so the reference range string `1e-05-1.0` escapes
the claim's three canonical shapes with plain positional numerals. -/
theorem C5_range_canonical_cex :
    (match parseText "x 5 0.00001-1" with
     | .ok (rows, _) => rows.map (fun r => r.reference_range)
     | .error _ => []) = [some "1e-05-1.0"]
    ∧ isCanonicalRange "1e-05-1.0" = false :=
  ⟨by rfl, by rfl⟩

/-- Witness for C5 on `"TSH 6.0 mIU/L 0.4 to 4.0"`. -/
theorem C5_range_canonical_witness : isCanonicalRangeSci "0.4-4.0" = true :=
  C5_range_canonical "TSH 6.0 mIU/L 0.4 to 4.0" [wrowT] [] wrowT "0.4-4.0" (by rfl)
    (List.mem_singleton.mpr rfl) rfl

/-- Witness for C10: the orphan cell `"(1-9)"` attaches its range to the
single rangeless row of `wst0`. -/
theorem C10_orphan_attachment_witness :
    wst1.rows = wst0.rows
    ∨ (∃ r, wst1.rows = wst0.rows ++ [r])
    ∨ (∃ last rstr ri, RangeCases ri ∧ ri.str = some rstr
        ∧ wst0.rows.getLast? = some last ∧ last.reference_range = none
        ∧ wst1.rows = wst0.rows.dropLast ++ [attachRange last rstr ri]
        ∧ wst1.unparsed = wst0.unparsed) :=
  (C10_orphan_attachment).1 wst0 "(1-9)" wst1 (by rfl)

end LabParser
